import Mathlib

/-!
Verification of the bounded-capacity single-room chat coordinator.

This development gives a shallow embedding, in Lean, of the Go sources of the
repository (models/message.go, services/lobby_service.go, handlers/ws_handler.go,
handlers/auth_handler.go, controllers/ws_controller.go) and proves or refutes the
frozen specification claims against it.

Modelling conventions:
- Go maps become association lists with the operations mapGet / mapSet / mapErase.
- time.Time becomes a Nat logical clock, incremented once per processed event.
- A buffered Go channel becomes a Chan record (buffer, capacity, closed flag)
  stored in a heap indexed by allocation order, so that channel identity (the
  same channel reachable from the Clients map and from a pump's Client value)
  is preserved.  Closing an already-closed channel is a Go runtime panic; the
  model records it by setting the crashed flag of the server state, after which
  the coordinator loop makes no further progress.
- The coordinator goroutine (LobbyService.Run) serializes register, unregister
  and broadcast requests; the model replays an arbitrary finite trace of events
  through the step function.  Register requests enter the system only through
  WSHandler.HandleWebSocket, so the connect event performs that handler's
  validation before producing the register request, exactly as in the source.
- config.MaxUsersPerLobby lives in a config package that is not part of the
  given sources; it is threaded through as the parameter cfgMax.
- RedisService.PushMessage is an external gateway; its success or failure is an
  input of a broadcast event, and (as in the source) a failure is only logged.
-/

namespace Chat

/-! ## Association-list rendering of Go maps -/

/-- Lookup in a Go map rendered as an association list. -/
def mapGet {α β : Type} [DecidableEq α] : List (α × β) → α → Option β
  | [], _ => none
  | p :: rest, k => if p.1 = k then some p.2 else mapGet rest k

/-- Map assignment m[k] = v: replace the binding if the key is present,
otherwise add a new binding. -/
def mapSet {α β : Type} [DecidableEq α] : List (α × β) → α → β → List (α × β)
  | [], k, v => [(k, v)]
  | p :: rest, k, v => if p.1 = k then (k, v) :: rest else p :: mapSet rest k v

/-- Map deletion delete(m, k). -/
def mapErase {α β : Type} [DecidableEq α] : List (α × β) → α → List (α × β)
  | [], _ => []
  | p :: rest, k => if p.1 = k then mapErase rest k else p :: mapErase rest k

/-- The keys of a Go map rendered as an association list. -/
def mapKeys {α β : Type} (m : List (α × β)) : List α := m.map Prod.fst

@[simp] theorem mapKeys_nil {α β : Type} : mapKeys (α := α) (β := β) [] = [] := rfl

@[simp] theorem mapKeys_cons {α β : Type} (p : α × β) (rest : List (α × β)) :
    mapKeys (p :: rest) = p.1 :: mapKeys rest := rfl

theorem length_mapKeys {α β : Type} (m : List (α × β)) :
    (mapKeys m).length = m.length := by
  simp [mapKeys]

section MapLemmas

variable {α β : Type} [DecidableEq α]

theorem mapGet_mapSet_self (m : List (α × β)) (k : α) (v : β) :
    mapGet (mapSet m k v) k = some v := by
  induction m with
  | nil => simp [mapGet, mapSet]
  | cons p rest ih =>
      by_cases h : p.1 = k
      · simp [mapGet, mapSet, h]
      · simp [mapGet, mapSet, h, ih]

theorem mapGet_mapSet_ne (m : List (α × β)) (k k2 : α) (v : β) (h : k ≠ k2) :
    mapGet (mapSet m k v) k2 = mapGet m k2 := by
  induction m with
  | nil => simp [mapGet, mapSet, h]
  | cons p rest ih =>
      by_cases hp : p.1 = k
      · subst hp
        simp [mapGet, mapSet, h]
      · simp only [mapSet, if_neg hp]
        by_cases hp2 : p.1 = k2
        · simp [mapGet, hp2]
        · simp [mapGet, hp2, ih]

theorem mapGet_eq_none_iff (m : List (α × β)) (k : α) :
    mapGet m k = none ↔ k ∉ mapKeys m := by
  induction m with
  | nil => simp [mapGet]
  | cons p rest ih =>
      by_cases h : p.1 = k
      · simp [mapGet, h]
      · simp [mapGet, h, ih, Ne.symm h]

theorem mapGet_isSome_iff (m : List (α × β)) (k : α) :
    (mapGet m k).isSome ↔ k ∈ mapKeys m := by
  rw [Option.isSome_iff_ne_none, ne_eq, mapGet_eq_none_iff, not_not]

theorem mem_mapKeys_of_mapGet_some (m : List (α × β)) (k : α) (v : β)
    (h : mapGet m k = some v) : k ∈ mapKeys m := by
  have hs : (mapGet m k).isSome := by simp [h]
  exact (mapGet_isSome_iff m k).mp hs

theorem mapKeys_mapSet_mem (m : List (α × β)) (k : α) (v : β)
    (h : k ∈ mapKeys m) : mapKeys (mapSet m k v) = mapKeys m := by
  induction m with
  | nil => simp at h
  | cons p rest ih =>
      by_cases hp : p.1 = k
      · simp [mapSet, hp]
      · rw [mapKeys_cons, List.mem_cons] at h
        have hk : k ∈ mapKeys rest := by
          rcases h with h1 | h1
          · exact absurd h1.symm hp
          · exact h1
        simp [mapSet, hp, ih hk]

theorem mapKeys_mapSet_notMem (m : List (α × β)) (k : α) (v : β)
    (h : k ∉ mapKeys m) : mapKeys (mapSet m k v) = mapKeys m ++ [k] := by
  induction m with
  | nil => simp [mapSet]
  | cons p rest ih =>
      have hp : p.1 ≠ k := fun hc => h (by simp [hc])
      have hk : k ∉ mapKeys rest := fun hc => h (by simp [hc])
      simp [mapSet, hp, ih hk]

theorem length_mapSet_mem (m : List (α × β)) (k : α) (v : β)
    (h : k ∈ mapKeys m) : (mapSet m k v).length = m.length := by
  have h1 := congrArg List.length (mapKeys_mapSet_mem m k v h)
  simpa [length_mapKeys] using h1

theorem length_mapSet_notMem (m : List (α × β)) (k : α) (v : β)
    (h : k ∉ mapKeys m) : (mapSet m k v).length = m.length + 1 := by
  have h1 := congrArg List.length (mapKeys_mapSet_notMem m k v h)
  simpa [length_mapKeys] using h1

theorem nodup_mapKeys_mapSet (m : List (α × β)) (k : α) (v : β)
    (h : (mapKeys m).Nodup) : (mapKeys (mapSet m k v)).Nodup := by
  by_cases hk : k ∈ mapKeys m
  · rw [mapKeys_mapSet_mem m k v hk]; exact h
  · rw [mapKeys_mapSet_notMem m k v hk]
    simp [List.nodup_append, h, hk]

theorem mapErase_sublist (m : List (α × β)) (k : α) :
    (mapErase m k).Sublist m := by
  induction m with
  | nil => simp [mapErase]
  | cons p rest ih =>
      by_cases hp : p.1 = k
      · simpa [mapErase, hp] using ih.cons p
      · simpa [mapErase, hp] using ih.cons₂ p

theorem mapKeys_mapErase_sublist (m : List (α × β)) (k : α) :
    (mapKeys (mapErase m k)).Sublist (mapKeys m) :=
  (mapErase_sublist m k).map Prod.fst

theorem notMem_mapKeys_mapErase (m : List (α × β)) (k : α) :
    k ∉ mapKeys (mapErase m k) := by
  induction m with
  | nil => simp [mapErase]
  | cons p rest ih =>
      by_cases hp : p.1 = k
      · simpa [mapErase, hp] using ih
      · simp [mapErase, hp, Ne.symm hp, ih]

theorem mem_mapKeys_mapErase_of_ne (m : List (α × β)) (k k2 : α) (h : k2 ≠ k)
    (hm : k2 ∈ mapKeys m) : k2 ∈ mapKeys (mapErase m k) := by
  induction m with
  | nil => simp at hm
  | cons p rest ih =>
      rw [mapKeys_cons, List.mem_cons] at hm
      by_cases hp : p.1 = k
      · rcases hm with h1 | h1
        · exact absurd (h1.trans hp) h
        · simpa [mapErase, hp] using ih h1
      · have hgoal : mapKeys (mapErase (p :: rest) k) = p.1 :: mapKeys (mapErase rest k) := by
          simp [mapErase, hp]
        rw [hgoal, List.mem_cons]
        rcases hm with h1 | h1
        · exact Or.inl h1
        · exact Or.inr (ih h1)

theorem mapGet_mapErase_ne (m : List (α × β)) (k k2 : α) (h : k2 ≠ k) :
    mapGet (mapErase m k) k2 = mapGet m k2 := by
  induction m with
  | nil => simp [mapErase]
  | cons p rest ih =>
      by_cases hp : p.1 = k
      · have hne : ¬ p.1 = k2 := by rw [hp]; exact fun hc => h hc.symm
        simp [mapErase, mapGet, hp, hne, ih, Ne.symm h]
      · by_cases hp2 : p.1 = k2
        · simp [mapErase, mapGet, hp, hp2, h]
        · simp [mapErase, mapGet, hp, hp2, ih]

theorem mem_mapSet (m : List (α × β)) (k : α) (v : β) (p : α × β)
    (h : p ∈ mapSet m k v) : p = (k, v) ∨ p ∈ m := by
  induction m with
  | nil => simpa [mapSet] using h
  | cons q rest ih =>
      by_cases hq : q.1 = k
      · rcases (by simpa [mapSet, hq] using h : p = (k, v) ∨ p ∈ rest) with h1 | h1
        · exact Or.inl h1
        · exact Or.inr (List.mem_cons_of_mem q h1)
      · rcases (by simpa [mapSet, hq] using h : p = q ∨ p ∈ mapSet rest k v) with h1 | h1
        · exact Or.inr (h1 ▸ List.mem_cons_self q rest)
        · rcases ih h1 with h2 | h2
          · exact Or.inl h2
          · exact Or.inr (List.mem_cons_of_mem q h2)

end MapLemmas

/-! ## Data model (models/message.go) -/

/-- MessageType from models/message.go ("message" or "system_action"). -/
inductive MessageType : Type where
  | chat
  | systemAction
deriving DecidableEq, Repr

/-- SystemActionType from models/message.go. -/
inductive SystemActionType : Type where
  | welcome
  | userJoined
  | userLeft
  | error
  | userList
deriving DecidableEq, Repr

/-- Message from models/message.go.  Field names are the Go field names in
lowercase (Type is a Lean keyword); time.Time is a Nat logical timestamp. -/
structure Message : Type where
  type : MessageType
  systemAction : Option SystemActionType := none
  username : String := ""
  content : String := ""
  lobbyID : String := ""
  userCount : Nat := 0
  maxUsers : Nat := 0
  userList : List String := []
  timestamp : Nat := 0
deriving DecidableEq, Repr

/-- User from models/user.go (declared with the lobby model; fields as used by
Lobby.AddUser and Lobby.MarkUserInactive). -/
structure User : Type where
  Email : String
  LobbyID : String
  JoinedAt : Nat
  IsActive : Bool
  LastSeen : Nat
deriving DecidableEq, Repr

/-- A buffered Go channel of Message (chan Message).  buf is the pending
buffer, cap the buffer capacity, closed the closed flag. -/
structure Chan : Type where
  buf : List Message
  cap : Nat
  closed : Bool
deriving DecidableEq, Repr

/-- Client from models/message.go.  The Send channel is represented by its
index into the channel heap of the server state, so that the Client value held
by the connection pumps and the entry in Lobby.Clients denote the same
channel. The websocket Conn itself is an external resource and is not
modelled. -/
structure Client : Type where
  Email : String
  LobbyID : String
  Send : Nat
  JoinedAt : Nat
deriving DecidableEq, Repr

/-- Lobby from models/message.go.  The sync.RWMutex is not modelled: every
access in the source happens either under the lobby lock or in the serialized
coordinator loop, and the model replays one serialized operation at a time. -/
structure Lobby : Type where
  ID : String
  Users : List (String × User)
  Clients : List (String × Client)
  MaxUsers : Nat
  IsActive : Bool
  CreatedAt : Nat
  WebSocketStarted : Bool
  MessageHistory : List Message
deriving DecidableEq, Repr

/-- NewLobby from models/message.go. -/
def NewLobby (id : String) (maxUsers : Nat) (now : Nat) : Lobby :=
  { ID := id
    Users := []
    Clients := []
    MaxUsers := maxUsers
    IsActive := false
    CreatedAt := now
    WebSocketStarted := false
    MessageHistory := [] }

/-- Lobby.AddUser: reactivate and refresh an existing user, or insert a fresh
active user.  Returns the updated lobby together with the returned *User. -/
def Lobby.AddUser (l : Lobby) (email : String) (now : Nat) : Lobby × User :=
  match mapGet l.Users email with
  | some user =>
      let user2 : User := { user with IsActive := true, LastSeen := now }
      ({ l with Users := mapSet l.Users email user2 }, user2)
  | none =>
      let user : User :=
        { Email := email
          LobbyID := l.ID
          JoinedAt := now
          IsActive := true
          LastSeen := now }
      ({ l with Users := mapSet l.Users email user }, user)

/-- Lobby.AddClient. -/
def Lobby.AddClient (l : Lobby) (email : String) (c : Client) : Lobby :=
  { l with Clients := mapSet l.Clients email c }

/-- Lobby.RemoveClient. -/
def Lobby.RemoveClient (l : Lobby) (email : String) : Lobby :=
  { l with Clients := mapErase l.Clients email }

/-- Lobby.MarkUserInactive. -/
def Lobby.MarkUserInactive (l : Lobby) (email : String) (now : Nat) : Lobby :=
  match mapGet l.Users email with
  | some user =>
      { l with Users := mapSet l.Users email { user with IsActive := false, LastSeen := now } }
  | none => l

/-- Lobby.GetActiveUserCount. -/
def Lobby.GetActiveUserCount (l : Lobby) : Nat :=
  (l.Users.filter (fun p => p.2.IsActive)).length

/-- Lobby.GetConnectedClientCount. -/
def Lobby.GetConnectedClientCount (l : Lobby) : Nat :=
  l.Clients.length

/-- Lobby.GetActiveUserList. -/
def Lobby.GetActiveUserList (l : Lobby) : List String :=
  (l.Users.filter (fun p => p.2.IsActive)).map Prod.fst

/-- Lobby.GetAllClients: the source copies the map to avoid concurrent access;
a Lean value is already immutable, so the copy is the value itself. -/
def Lobby.GetAllClients (l : Lobby) : List (String × Client) :=
  l.Clients

/-- Lobby.GetMessageHistory: the source returns a copy of the slice; a Lean
value is already immutable, so the snapshot is the value itself. -/
def Lobby.GetMessageHistory (l : Lobby) : List Message :=
  l.MessageHistory

/-- Lobby.AddMessageToHistory. -/
def Lobby.AddMessageToHistory (l : Lobby) (msg : Message) : Lobby :=
  { l with MessageHistory := l.MessageHistory ++ [msg] }

/-- Lobby.StartWebSocket. -/
def Lobby.StartWebSocket (l : Lobby) : Lobby :=
  { l with WebSocketStarted := true, IsActive := true }

/-- Lobby.IsWebSocketStarted. -/
def Lobby.IsWebSocketStarted (l : Lobby) : Bool :=
  l.WebSocketStarted

/-- Lobby.CanAcceptNewUsers. -/
def Lobby.CanAcceptNewUsers (l : Lobby) : Bool :=
  l.Users.length < l.MaxUsers

/-- Lobby.IsUserInLobby. -/
def Lobby.IsUserInLobby (l : Lobby) (email : String) : Bool :=
  (mapGet l.Users email).isSome

/-- Lobby.IsFull. -/
def Lobby.IsFull (l : Lobby) : Bool :=
  l.Users.length ≥ l.MaxUsers

/-- Lobby.GetUserCount. -/
def Lobby.GetUserCount (l : Lobby) : Nat :=
  l.Users.length

/-! ## Server state: registry, channel heap, logical clock -/

/-- The whole mutable state of the process: the LobbyService registry map, the
heap of live Send channels (indexed by allocation order), the next fresh
channel index, the logical clock, and whether the coordinator goroutine has
panicked. -/
structure ServerState : Type where
  lobbies : List (String × Lobby)
  chans : List (Nat × Chan)
  nextChan : Nat
  now : Nat
  crashed : Bool
deriving DecidableEq, Repr

/-- The state at process start: NewLobbyService makes an empty registry. -/
def initState : ServerState :=
  { lobbies := [], chans := [], nextChan := 0, now := 0, crashed := false }

/-- Blocking channel send (client.Send <- msg).  Sending on a closed channel
is a Go runtime panic (second component true).  When the buffer is full the
source's sender blocks until the outbound pump makes room; the buffer lists
every message enqueued, in order, so the model appends. -/
def chanSend (chans : List (Nat × Chan)) (cid : Nat) (msg : Message) :
    List (Nat × Chan) × Bool :=
  match mapGet chans cid with
  | none => (chans, false)
  | some ch =>
      if ch.closed then (chans, true)
      else (mapSet chans cid { ch with buf := ch.buf ++ [msg] }, false)

/-- Send a list of messages in order over a blocking channel, stopping at the
first panic. -/
def sendAll (chans : List (Nat × Chan)) (cid : Nat) :
    List Message → List (Nat × Chan) × Bool
  | [] => (chans, false)
  | m :: rest =>
      match chanSend chans cid m with
      | (cs, true) => (cs, true)
      | (cs, false) => sendAll cs cid rest

/-- Non-blocking send (select with default, services/lobby_service.go lines
272-281): delivery succeeds exactly when the channel is live and its buffer
has room; otherwise the default branch is taken (the source logs "channel
full or closed").  Channels held in a Clients map are never closed, because
the coordinator is the only goroutine that closes a Send channel and it
always removes the map entry in the same serialized request. -/
def chanTrySend (chans : List (Nat × Chan)) (cid : Nat) (msg : Message) :
    Option (List (Nat × Chan)) :=
  match mapGet chans cid with
  | none => none
  | some ch =>
      if ch.closed ∨ ch.buf.length ≥ ch.cap then none
      else some (mapSet chans cid { ch with buf := ch.buf ++ [msg] })

/-- close(client.Send).  Closing an already-closed channel is a Go runtime
panic (second component true). -/
def chanClose (chans : List (Nat × Chan)) (cid : Nat) : List (Nat × Chan) × Bool :=
  match mapGet chans cid with
  | none => (chans, false)
  | some ch =>
      if ch.closed then (chans, true)
      else (mapSet chans cid { ch with closed := true }, false)

/-! ## LobbyService registry operations (services/lobby_service.go) -/

/-- LobbyService.GetLobby. -/
def GetLobby (st : ServerState) (lobbyID : String) : Option Lobby :=
  mapGet st.lobbies lobbyID

/-- LobbyService.FindLobbyByUserEmail: first lobby containing the identity. -/
def FindLobbyByUserEmail (st : ServerState) (email : String) :
    Option (String × Lobby) :=
  st.lobbies.find? (fun p => p.2.IsUserInLobby email)

/-- LobbyService.GetAvailableLobby: first lobby that can accept new users. -/
def GetAvailableLobby (st : ServerState) : Option (String × Lobby) :=
  st.lobbies.find? (fun p => p.2.CanAcceptNewUsers)

/-- LobbyService.GetOrCreateLobby (services/lobby_service.go lines 36-63):
return a lobby that can accept users; otherwise, if a full lobby exists,
return nothing (single-session policy); otherwise create a fresh lobby whose
identifier derives from the current time. -/
def GetOrCreateLobby (cfgMax : Nat) (st : ServerState) :
    Option (String × Lobby) × ServerState :=
  match st.lobbies.find? (fun p => p.2.CanAcceptNewUsers) with
  | some p => (some p, st)
  | none =>
      if st.lobbies.any (fun p => p.2.IsFull) then (none, st)
      else
        let lobbyID := "lobby-" ++ toString st.now
        let lobby := NewLobby lobbyID cfgMax st.now
        (some (lobbyID, lobby),
         { st with lobbies := mapSet st.lobbies lobbyID lobby })

/-- Outcome of the login REST request, after request decoding succeeded. -/
inductive LoginOutcome : Type where
  | reconnect (lobbyID : String)
  | sessionInProgress
  | lobbyFull
  | registered (lobbyID : String)
deriving DecidableEq, Repr

/-- AuthHandler.Login (handlers/auth_handler.go lines 58-114), the admission
path once a non-empty email has been decoded: reconnect into the lobby that
already holds the identity, otherwise get or create an admission target,
rejecting when none is available (active session in progress) or when the
target cannot accept new users, and finally admit via Lobby.AddUser. -/
def login (cfgMax : Nat) (st : ServerState) (email : String) :
    ServerState × LoginOutcome :=
  match FindLobbyByUserEmail st email with
  | some p =>
      let r := p.2.AddUser email st.now
      ({ st with lobbies := mapSet st.lobbies p.1 r.1 }, .reconnect p.1)
  | none =>
      match GetOrCreateLobby cfgMax st with
      | (none, st2) => (st2, .sessionInProgress)
      | (some p, st2) =>
          if p.2.CanAcceptNewUsers then
            let r := p.2.AddUser email st2.now
            ({ st2 with lobbies := mapSet st2.lobbies p.1 r.1 }, .registered p.1)
          else (st2, .lobbyFull)

/-- Reason a websocket connection attempt is rejected before any pump starts. -/
inductive RejectReason : Type where
  | missingParams
  | lobbyNotFound
  | notAuthorized
deriving DecidableEq, Repr

/-- WSHandler.HandleWebSocket validation (handlers/ws_handler.go lines 24-47):
everything checked before the upgrade, the Client allocation and the two
pumps. -/
def handleWebSocketCheck (st : ServerState) (email lobbyID : String) :
    Option RejectReason :=
  if email = "" ∨ lobbyID = "" then some .missingParams
  else
    match GetLobby st lobbyID with
    | none => some .lobbyNotFound
    | some lobby =>
        if lobby.IsUserInLobby email then none else some .notAuthorized

/-! ## Coordinator request handlers (services/lobby_service.go) -/

/-- The welcome Message built in handleRegister (lines 149-159), after the
client has been added to the lobby. -/
def welcomeMessage (cfgMax : Nat) (lobby : Lobby) (clientEmail lobbyID : String)
    (now : Nat) : Message :=
  { type := .systemAction
    systemAction := some .welcome
    content := "Welcome back, " ++ clientEmail ++ "! 🎉"
    lobbyID := lobbyID
    userCount := lobby.GetActiveUserCount
    maxUsers := cfgMax
    userList := lobby.GetActiveUserList
    timestamp := now }

/-- The user-joined Message built in handleRegister (lines 179-190). -/
def joinMessage (cfgMax : Nat) (lobby : Lobby) (clientEmail lobbyID : String)
    (now : Nat) : Message :=
  { type := .systemAction
    systemAction := some .userJoined
    username := clientEmail
    content := clientEmail ++ " joined the chat"
    lobbyID := lobbyID
    userCount := lobby.GetActiveUserCount
    maxUsers := cfgMax
    userList := lobby.GetActiveUserList
    timestamp := now }

/-- The user-left Message built in handleUnregister (lines 221-232). -/
def leaveMessage (cfgMax : Nat) (lobby : Lobby) (clientEmail lobbyID : String)
    (now : Nat) : Message :=
  { type := .systemAction
    systemAction := some .userLeft
    username := clientEmail
    content := clientEmail ++ " left the chat"
    lobbyID := lobbyID
    userCount := lobby.GetActiveUserCount
    maxUsers := cfgMax
    userList := lobby.GetActiveUserList
    timestamp := now }

/-- handleRegister (services/lobby_service.go lines 132-203): resolve the
lobby (on failure the caller's connection is closed and nothing changes),
attach the client, enqueue the welcome message and then the history snapshot
on the just-attached channel, and mark the session started when the
connected-client count equals config.MaxUsersPerLobby.  The user-joined
broadcast is submitted asynchronously (go func) and reaches the loop as a
later broadcast request, which the trace semantics renders as a separate
broadcast event. -/
def handleRegister (cfgMax : Nat) (st : ServerState) (c : Client) : ServerState :=
  match GetLobby st c.LobbyID with
  | none => st
  | some lobby =>
      let lobby2 := lobby.AddClient c.Email c
      let connectedCount := lobby2.GetConnectedClientCount
      let wmsg := welcomeMessage cfgMax lobby2 c.Email c.LobbyID st.now
      match sendAll st.chans c.Send (wmsg :: lobby2.GetMessageHistory) with
      | (chans1, true) =>
          { st with lobbies := mapSet st.lobbies c.LobbyID lobby2,
                    chans := chans1, crashed := true }
      | (chans1, false) =>
          let lobby3 := if connectedCount = cfgMax then lobby2.StartWebSocket else lobby2
          { st with lobbies := mapSet st.lobbies c.LobbyID lobby3, chans := chans1 }

/-- handleUnregister (services/lobby_service.go lines 205-241): resolve the
lobby (absent: return), remove the client entry, close the client's Send
channel (a panic here kills the coordinator goroutine before
MarkUserInactive runs), mark the user inactive.  The user-left broadcast is
submitted asynchronously and appears as a later broadcast event. -/
def handleUnregister (st : ServerState) (c : Client) : ServerState :=
  match GetLobby st c.LobbyID with
  | none => st
  | some lobby =>
      let lobby2 := lobby.RemoveClient c.Email
      match chanClose st.chans c.Send with
      | (chans1, true) =>
          { st with lobbies := mapSet st.lobbies c.LobbyID lobby2,
                    chans := chans1, crashed := true }
      | (chans1, false) =>
          let lobby3 := lobby2.MarkUserInactive c.Email st.now
          { st with lobbies := mapSet st.lobbies c.LobbyID lobby3, chans := chans1 }

/-- The fan-out loop of handleBroadcast (lines 272-281): non-blocking send to
every client in the snapshot; on failure remove that client from the lobby
and close its channel.  A panic (close of an already-closed channel) aborts
the remaining iterations. -/
def fanOut (msg : Message) : List (String × Client) → Lobby → List (Nat × Chan) →
    Lobby × List (Nat × Chan) × Bool
  | [], lobby, chans => (lobby, chans, false)
  | p :: rest, lobby, chans =>
      match chanTrySend chans p.2.Send msg with
      | some chans2 => fanOut msg rest lobby chans2
      | none =>
          let lobby2 := lobby.RemoveClient p.1
          match chanClose chans p.2.Send with
          | (chans2, true) => (lobby2, chans2, true)
          | (chans2, false) => fanOut msg rest lobby2 chans2

/-- handleBroadcast (services/lobby_service.go lines 243-282): resolve the
lobby (absent: return), append chat messages to the history and push them to
the external Redis gateway (redisFails is that call's outcome; a failure is
only logged), then fan out to the snapshot of connected clients. -/
def handleBroadcast (st : ServerState) (lobbyID : String) (msg : Message)
    (redisFails : Bool) : ServerState :=
  match GetLobby st lobbyID with
  | none => st
  | some lobby =>
      let lobby2 :=
        if msg.type = MessageType.chat then lobby.AddMessageToHistory msg else lobby
      match fanOut msg lobby2.GetAllClients lobby2 st.chans with
      | (lobby3, chans1, pan) =>
          { st with lobbies := mapSet st.lobbies lobbyID lobby3,
                    chans := chans1, crashed := st.crashed || pan }

/-! ## Event trace semantics -/

/-- One externally-triggered event.  connect is the whole HandleWebSocket
path: validation, then allocation of a Client with a fresh Send channel of
capacity 256 (handlers/ws_handler.go lines 60-66), then the register request
that the coordinator serves.  unregister carries the Client value the
pump pair holds (controllers/ws_controller.go ReadPump defer).  broadcast is
a request on the Broadcast channel together with the outcome of the
associated external persistence call. -/
inductive Event : Type where
  | login (email : String)
  | connect (email : String) (lobbyID : String)
  | unregister (c : Client)
  | broadcast (lobbyID : String) (msg : Message) (redisFails : Bool)
deriving DecidableEq, Repr

/-- Serve one event (ignoring the crash flag; see step). -/
def stepCore (cfgMax : Nat) (st : ServerState) : Event → ServerState
  | .login email => (login cfgMax st email).1
  | .connect email lobbyID =>
      match handleWebSocketCheck st email lobbyID with
      | some _ => st
      | none =>
          let c : Client :=
            { Email := email, LobbyID := lobbyID, Send := st.nextChan, JoinedAt := st.now }
          let st2 := { st with
            chans := mapSet st.chans st.nextChan { buf := [], cap := 256, closed := false },
            nextChan := st.nextChan + 1 }
          handleRegister cfgMax st2 c
  | .unregister c => handleUnregister st c
  | .broadcast lobbyID msg redisFails => handleBroadcast st lobbyID msg redisFails

/-- Serve one event.  Once the coordinator goroutine has panicked the process
is dead and no request makes progress.  The logical clock advances once per
served event. -/
def step (cfgMax : Nat) (st : ServerState) (e : Event) : ServerState :=
  if st.crashed then st
  else
    let st2 := stepCore cfgMax st e
    { st2 with now := st2.now + 1 }

/-- Replay a trace of events. -/
def run (cfgMax : Nat) (st : ServerState) (events : List Event) : ServerState :=
  events.foldl (step cfgMax) st

/-! ## State observation helpers -/

/-- The lobby registered under an id, if any. -/
def lobbyOf (st : ServerState) (lobbyID : String) : Option Lobby :=
  mapGet st.lobbies lobbyID

/-- The Users map of the lobby registered under an id (empty when absent). -/
def usersOf (st : ServerState) (lobbyID : String) : List (String × User) :=
  match lobbyOf st lobbyID with
  | some l => l.Users
  | none => []

/-- The Clients map of the lobby registered under an id (empty when absent). -/
def clientsOf (st : ServerState) (lobbyID : String) : List (String × Client) :=
  match lobbyOf st lobbyID with
  | some l => l.Clients
  | none => []

/-- The WebSocketStarted flag of the lobby registered under an id. -/
def startedOf (st : ServerState) (lobbyID : String) : Bool :=
  match lobbyOf st lobbyID with
  | some l => l.WebSocketStarted
  | none => false

/-- The message history of the lobby registered under an id. -/
def historyOf (st : ServerState) (lobbyID : String) : List Message :=
  match lobbyOf st lobbyID with
  | some l => l.MessageHistory
  | none => []

/-! ## Auxiliary lemmas about channels and the fan-out loop -/

theorem mapSet_mapSet {α β : Type} [DecidableEq α]
    (m : List (α × β)) (k : α) (v v2 : β) :
    mapSet (mapSet m k v) k v2 = mapSet m k v2 := by
  induction m with
  | nil => simp [mapSet]
  | cons p rest ih =>
      by_cases hp : p.1 = k
      · simp [mapSet, hp]
      · simp [mapSet, hp, ih]

theorem mapSet_eq_of_mapGet {α β : Type} [DecidableEq α]
    (m : List (α × β)) (k : α) (v : β) (h : mapGet m k = some v) :
    mapSet m k v = m := by
  induction m with
  | nil => simp [mapGet] at h
  | cons p rest ih =>
      by_cases hp : p.1 = k
      · have hv : p.2 = v := by simpa [mapGet, hp] using h
        have hpair : (k, v) = p := by
          rw [← hp, ← hv]
        simp [mapSet, hp, hpair]
      · have h2 : mapGet rest k = some v := by simpa [mapGet, hp] using h
        simp [mapSet, hp, ih h2]

theorem mapKeys_chanSend (chans : List (Nat × Chan)) (cid : Nat) (msg : Message) :
    mapKeys (chanSend chans cid msg).1 = mapKeys chans := by
  unfold chanSend
  cases h : mapGet chans cid with
  | none => rfl
  | some ch =>
      by_cases hcl : ch.closed
      · simp [hcl]
      · simp [hcl, mapKeys_mapSet_mem _ _ _ (mem_mapKeys_of_mapGet_some _ _ _ h)]

theorem mapKeys_sendAll (cid : Nat) (msgs : List Message) :
    ∀ chans : List (Nat × Chan), mapKeys (sendAll chans cid msgs).1 = mapKeys chans := by
  induction msgs with
  | nil => intro chans; rfl
  | cons m rest ih =>
      intro chans
      cases h : chanSend chans cid m with
      | mk cs pan =>
          cases pan
          · have h1 : mapKeys cs = mapKeys chans := by
              have := mapKeys_chanSend chans cid m
              rw [h] at this; exact this
            simp [sendAll, h, ih cs, h1]
          · have h1 : mapKeys cs = mapKeys chans := by
              have := mapKeys_chanSend chans cid m
              rw [h] at this; exact this
            simp [sendAll, h, h1]

theorem mapKeys_chanClose (chans : List (Nat × Chan)) (cid : Nat) :
    mapKeys (chanClose chans cid).1 = mapKeys chans := by
  unfold chanClose
  cases h : mapGet chans cid with
  | none => rfl
  | some ch =>
      by_cases hcl : ch.closed
      · simp [hcl]
      · simp [hcl, mapKeys_mapSet_mem _ _ _ (mem_mapKeys_of_mapGet_some _ _ _ h)]

theorem mapKeys_chanTrySend (chans : List (Nat × Chan)) (cid : Nat) (msg : Message)
    (cs2 : List (Nat × Chan)) (h : chanTrySend chans cid msg = some cs2) :
    mapKeys cs2 = mapKeys chans := by
  cases hg : mapGet chans cid with
  | none => simp [chanTrySend, hg] at h
  | some ch =>
      by_cases hc : ch.closed = true ∨ ch.buf.length ≥ ch.cap
      · simp [chanTrySend, hg, hc] at h
      · simp [chanTrySend, hg, hc] at h
        rw [← h]
        exact mapKeys_mapSet_mem chans cid _ (mem_mapKeys_of_mapGet_some _ _ _ hg)

theorem mapKeys_fanOut (msg : Message) :
    ∀ (cls : List (String × Client)) (lobby : Lobby) (chans : List (Nat × Chan)),
    mapKeys (fanOut msg cls lobby chans).2.1 = mapKeys chans := by
  intro cls
  induction cls with
  | nil => intro lobby chans; rfl
  | cons p rest ih =>
      intro lobby chans
      cases h : chanTrySend chans p.2.Send msg with
      | some chans2 =>
          have h1 := mapKeys_chanTrySend chans p.2.Send msg chans2 h
          simp [fanOut, h, ih lobby chans2, h1]
      | none =>
          cases h2 : chanClose chans p.2.Send with
          | mk chans2 pan =>
              have h1 : mapKeys chans2 = mapKeys chans := by
                have := mapKeys_chanClose chans p.2.Send
                rw [h2] at this; exact this
              cases pan
              · simp [fanOut, h, h2, ih _ chans2, h1]
              · simp [fanOut, h, h2, h1]

/-- A blocking send over an open channel appends to the buffer and never
panics; a sequence of such sends appends the whole list. -/
theorem sendAll_open (cid : Nat) :
    ∀ (msgs : List Message) (chans : List (Nat × Chan)) (ch : Chan),
    mapGet chans cid = some ch → ch.closed = false →
    sendAll chans cid msgs = (mapSet chans cid { ch with buf := ch.buf ++ msgs }, false) := by
  intro msgs
  induction msgs with
  | nil =>
      intro chans ch h hcl
      have he : ({ ch with buf := ch.buf ++ [] } : Chan) = ch := by simp
      rw [he, mapSet_eq_of_mapGet chans cid ch h]
      rfl
  | cons m rest ih =>
      intro chans ch h hcl
      have hstep : chanSend chans cid m =
          (mapSet chans cid { ch with buf := ch.buf ++ [m] }, false) := by
        unfold chanSend
        rw [h]
        simp [hcl]
      have hget : mapGet (mapSet chans cid { ch with buf := ch.buf ++ [m] }) cid =
          some { ch with buf := ch.buf ++ [m] } := mapGet_mapSet_self _ _ _
      have := ih (mapSet chans cid { ch with buf := ch.buf ++ [m] })
        { ch with buf := ch.buf ++ [m] } hget (by simpa using hcl)
      rw [show sendAll chans cid (m :: rest) =
          sendAll (mapSet chans cid { ch with buf := ch.buf ++ [m] }) cid rest by
        simp [sendAll, hstep], this, mapSet_mapSet]
      simp

/-- The fan-out loop only ever shrinks the Clients map of the lobby; every
other lobby field is untouched. -/
theorem fanOut_toLobby (msg : Message) :
    ∀ (cls : List (String × Client)) (lobby : Lobby) (chans : List (Nat × Chan)),
    ∃ cl2, (fanOut msg cls lobby chans).1 = { lobby with Clients := cl2 } ∧
      cl2.Sublist lobby.Clients := by
  intro cls
  induction cls with
  | nil =>
      intro lobby chans
      exact ⟨lobby.Clients, by simp [fanOut], List.Sublist.refl _⟩
  | cons p rest ih =>
      intro lobby chans
      cases h : chanTrySend chans p.2.Send msg with
      | some chans2 => simpa [fanOut, h] using ih lobby chans2
      | none =>
          cases h2 : chanClose chans p.2.Send with
          | mk chans2 pan =>
              cases pan
              · obtain ⟨cl2, heq, hsub⟩ := ih (lobby.RemoveClient p.1) chans2
                refine ⟨cl2, ?_, hsub.trans (mapErase_sublist _ _)⟩
                simp only [fanOut, h, h2]
                rw [heq]
                rfl
              · refine ⟨mapErase lobby.Clients p.1, ?_, mapErase_sublist _ _⟩
                simp [fanOut, h, h2, Lobby.RemoveClient]

/-! ## Boolean views of the lobby predicates -/

theorem isUserInLobby_iff (l : Lobby) (email : String) :
    l.IsUserInLobby email = true ↔ email ∈ mapKeys l.Users := by
  unfold Lobby.IsUserInLobby
  exact mapGet_isSome_iff _ _

theorem canAccept_iff (l : Lobby) :
    l.CanAcceptNewUsers = true ↔ l.Users.length < l.MaxUsers := by
  unfold Lobby.CanAcceptNewUsers
  simp

theorem isFull_iff (l : Lobby) : l.IsFull = true ↔ l.Users.length ≥ l.MaxUsers := by
  unfold Lobby.IsFull
  simp

theorem isFull_of_not_canAccept (l : Lobby) (h : l.CanAcceptNewUsers = false) :
    l.IsFull = true := by
  rw [isFull_iff]
  by_contra hc
  push_neg at hc
  rw [(canAccept_iff l).mpr hc] at h
  cases h

/-! ## Equation lemmas for the service operations -/

theorem getOrCreate_eq_found (cfgMax : Nat) (st : ServerState) (p : String × Lobby)
    (hf : st.lobbies.find? (fun q => q.2.CanAcceptNewUsers) = some p) :
    GetOrCreateLobby cfgMax st = (some p, st) := by
  unfold GetOrCreateLobby
  rw [hf]

theorem getOrCreate_eq_blocked (cfgMax : Nat) (st : ServerState)
    (hf : st.lobbies.find? (fun q => q.2.CanAcceptNewUsers) = none)
    (hany : st.lobbies.any (fun q => q.2.IsFull) = true) :
    GetOrCreateLobby cfgMax st = (none, st) := by
  unfold GetOrCreateLobby
  rw [hf, hany]
  rfl

theorem getOrCreate_eq_create (cfgMax : Nat) (st : ServerState)
    (hf : st.lobbies.find? (fun q => q.2.CanAcceptNewUsers) = none)
    (hany : st.lobbies.any (fun q => q.2.IsFull) = false) :
    GetOrCreateLobby cfgMax st =
      (some ("lobby-" ++ toString st.now, NewLobby ("lobby-" ++ toString st.now) cfgMax st.now),
       { st with lobbies := (mapSet st.lobbies ("lobby-" ++ toString st.now)
           (NewLobby ("lobby-" ++ toString st.now) cfgMax st.now)) }) := by
  unfold GetOrCreateLobby
  rw [hf, hany]
  rfl

theorem login_eq_reconnect (cfgMax : Nat) (st : ServerState) (email : String)
    (p : String × Lobby) (hF : FindLobbyByUserEmail st email = some p) :
    login cfgMax st email =
      ({ st with lobbies := mapSet st.lobbies p.1 (p.2.AddUser email st.now).1 },
       .reconnect p.1) := by
  unfold login
  rw [hF]

theorem login_eq_blocked (cfgMax : Nat) (st st2 : ServerState) (email : String)
    (hF : FindLobbyByUserEmail st email = none)
    (hG : GetOrCreateLobby cfgMax st = (none, st2)) :
    login cfgMax st email = (st2, .sessionInProgress) := by
  unfold login
  rw [hF, hG]

theorem login_eq_target_full (cfgMax : Nat) (st st2 : ServerState) (email : String)
    (p : String × Lobby) (hF : FindLobbyByUserEmail st email = none)
    (hG : GetOrCreateLobby cfgMax st = (some p, st2))
    (hful : p.2.CanAcceptNewUsers = false) :
    login cfgMax st email = (st2, .lobbyFull) := by
  unfold login
  rw [hF, hG]
  simp [hful]

theorem login_eq_target_ok (cfgMax : Nat) (st st2 : ServerState) (email : String)
    (p : String × Lobby) (hF : FindLobbyByUserEmail st email = none)
    (hG : GetOrCreateLobby cfgMax st = (some p, st2))
    (hok : p.2.CanAcceptNewUsers = true) :
    login cfgMax st email =
      ({ st2 with lobbies := mapSet st2.lobbies p.1 (p.2.AddUser email st2.now).1 },
       .registered p.1) := by
  unfold login
  rw [hF, hG]
  simp [hok]

theorem addUser_eq_existing (l : Lobby) (email : String) (now : Nat) (u : User)
    (h : mapGet l.Users email = some u) :
    l.AddUser email now =
      ({ l with Users := mapSet l.Users email { u with IsActive := true, LastSeen := now } },
       { u with IsActive := true, LastSeen := now }) := by
  unfold Lobby.AddUser
  rw [h]

theorem addUser_eq_new (l : Lobby) (email : String) (now : Nat)
    (h : mapGet l.Users email = none) :
    l.AddUser email now =
      ({ l with Users := (mapSet l.Users email
          { Email := email, LobbyID := l.ID, JoinedAt := now, IsActive := true, LastSeen := now }) },
       { Email := email, LobbyID := l.ID, JoinedAt := now, IsActive := true, LastSeen := now }) := by
  unfold Lobby.AddUser
  rw [h]

theorem markUserInactive_eq_found (l : Lobby) (email : String) (now : Nat) (u : User)
    (h : mapGet l.Users email = some u) :
    l.MarkUserInactive email now =
      { l with Users := mapSet l.Users email { u with IsActive := false, LastSeen := now } } := by
  unfold Lobby.MarkUserInactive
  rw [h]

theorem markUserInactive_eq_absent (l : Lobby) (email : String) (now : Nat)
    (h : mapGet l.Users email = none) :
    l.MarkUserInactive email now = l := by
  unfold Lobby.MarkUserInactive
  rw [h]

theorem handleRegister_eq_noLobby (cfgMax : Nat) (st : ServerState) (c : Client)
    (h : GetLobby st c.LobbyID = none) : handleRegister cfgMax st c = st := by
  unfold handleRegister
  rw [h]

theorem handleRegister_eq_found (cfgMax : Nat) (st : ServerState) (c : Client)
    (lobby : Lobby) (h : GetLobby st c.LobbyID = some lobby) :
    handleRegister cfgMax st c =
      (match sendAll st.chans c.Send
          (welcomeMessage cfgMax (lobby.AddClient c.Email c) c.Email c.LobbyID st.now ::
            (lobby.AddClient c.Email c).GetMessageHistory) with
       | (chans1, true) =>
          { st with lobbies := mapSet st.lobbies c.LobbyID (lobby.AddClient c.Email c),
                    chans := chans1, crashed := true }
       | (chans1, false) =>
          { st with
            lobbies := mapSet st.lobbies c.LobbyID
              (if (lobby.AddClient c.Email c).GetConnectedClientCount = cfgMax
               then (lobby.AddClient c.Email c).StartWebSocket
               else lobby.AddClient c.Email c),
            chans := chans1 }) := by
  unfold handleRegister
  rw [h]

theorem handleUnregister_eq_noLobby (st : ServerState) (c : Client)
    (h : GetLobby st c.LobbyID = none) : handleUnregister st c = st := by
  unfold handleUnregister
  rw [h]

theorem handleUnregister_eq_found (st : ServerState) (c : Client) (lobby : Lobby)
    (h : GetLobby st c.LobbyID = some lobby) :
    handleUnregister st c =
      (match chanClose st.chans c.Send with
       | (chans1, true) =>
          { st with lobbies := mapSet st.lobbies c.LobbyID (lobby.RemoveClient c.Email),
                    chans := chans1, crashed := true }
       | (chans1, false) =>
          { st with
            lobbies := mapSet st.lobbies c.LobbyID
              ((lobby.RemoveClient c.Email).MarkUserInactive c.Email st.now),
            chans := chans1 }) := by
  unfold handleUnregister
  rw [h]

theorem handleBroadcast_eq_noLobby (st : ServerState) (lobbyID : String)
    (msg : Message) (rf : Bool) (h : GetLobby st lobbyID = none) :
    handleBroadcast st lobbyID msg rf = st := by
  unfold handleBroadcast
  rw [h]

theorem handleBroadcast_eq_found (st : ServerState) (lobbyID : String)
    (msg : Message) (rf : Bool) (lobby : Lobby) (h : GetLobby st lobbyID = some lobby) :
    handleBroadcast st lobbyID msg rf =
      (let lobby2 :=
        if msg.type = MessageType.chat then lobby.AddMessageToHistory msg else lobby
       { st with
         lobbies := mapSet st.lobbies lobbyID (fanOut msg lobby2.GetAllClients lobby2 st.chans).1,
         chans := (fanOut msg lobby2.GetAllClients lobby2 st.chans).2.1,
         crashed := st.crashed || (fanOut msg lobby2.GetAllClients lobby2 st.chans).2.2 }) := by
  unfold handleBroadcast
  rw [h]

theorem stepCore_connect_rejected (cfgMax : Nat) (st : ServerState)
    (email lobbyID : String) (r : RejectReason)
    (h : handleWebSocketCheck st email lobbyID = some r) :
    stepCore cfgMax st (.connect email lobbyID) = st := by
  simp only [stepCore]
  rw [h]

theorem stepCore_connect_ok (cfgMax : Nat) (st : ServerState) (email lobbyID : String)
    (h : handleWebSocketCheck st email lobbyID = none) :
    stepCore cfgMax st (.connect email lobbyID) =
      handleRegister cfgMax
        { st with
          chans := mapSet st.chans st.nextChan { buf := [], cap := 256, closed := false },
          nextChan := st.nextChan + 1 }
        { Email := email, LobbyID := lobbyID, Send := st.nextChan, JoinedAt := st.now } := by
  simp only [stepCore]
  rw [h]

/-! ## The reachable-state invariant -/

theorem mem_mapKeys_mapSet_iff {α β : Type} [DecidableEq α]
    (m : List (α × β)) (k0 : α) (v : β) (k : α) :
    k ∈ mapKeys (mapSet m k0 v) ↔ k = k0 ∨ k ∈ mapKeys m := by
  by_cases h : k0 ∈ mapKeys m
  · rw [mapKeys_mapSet_mem _ _ _ h]
    constructor
    · exact fun hm => Or.inr hm
    · rintro (he | hm)
      · exact he ▸ h
      · exact hm
  · rw [mapKeys_mapSet_notMem _ _ _ h]
    simp [List.mem_append, or_comm]

/-- Structural invariant of one lobby: both maps have duplicate-free keys,
every attached client is a member, and membership respects the capacity. -/
structure LobbyInv (cfgMax : Nat) (l : Lobby) : Prop where
  usersNodup : (mapKeys l.Users).Nodup
  clientsNodup : (mapKeys l.Clients).Nodup
  clientsSub : ∀ k, k ∈ mapKeys l.Clients → k ∈ mapKeys l.Users
  usersLe : l.Users.length ≤ l.MaxUsers
  maxEq : l.MaxUsers = cfgMax

/-- Invariant of reachable server states: the registry holds at most one
lobby (GetOrCreateLobby creates one only when none exists and nothing ever
deletes one), that lobby satisfies LobbyInv, and every allocated channel
index is below the allocation counter. -/
structure StInv (cfgMax : Nat) (st : ServerState) : Prop where
  shape : st.lobbies = [] ∨ ∃ lid L, st.lobbies = [(lid, L)] ∧ LobbyInv cfgMax L
  chansLt : ∀ cid, cid ∈ mapKeys st.chans → cid < st.nextChan

theorem lobbyInv_addUser (cfgMax : Nat) (l : Lobby) (email : String) (now : Nat)
    (hInv : LobbyInv cfgMax l)
    (hcap : mapGet l.Users email = none → l.Users.length < l.MaxUsers) :
    LobbyInv cfgMax (l.AddUser email now).1 := by
  cases h : mapGet l.Users email with
  | some u =>
      rw [addUser_eq_existing l email now u h]
      have hmem := mem_mapKeys_of_mapGet_some _ _ _ h
      refine ⟨?_, hInv.clientsNodup, ?_, ?_, hInv.maxEq⟩
      · rw [mapKeys_mapSet_mem _ _ _ hmem]
        exact hInv.usersNodup
      · intro k hk
        rw [mapKeys_mapSet_mem _ _ _ hmem]
        exact hInv.clientsSub k hk
      · rw [length_mapSet_mem _ _ _ hmem]
        exact hInv.usersLe
  | none =>
      rw [addUser_eq_new l email now h]
      have hmem : email ∉ mapKeys l.Users := (mapGet_eq_none_iff _ _).mp h
      have hlen := hcap h
      refine ⟨?_, hInv.clientsNodup, ?_, ?_, hInv.maxEq⟩
      · rw [mapKeys_mapSet_notMem _ _ _ hmem]
        simp [List.nodup_append, hInv.usersNodup, hmem]
      · intro k hk
        rw [mapKeys_mapSet_notMem _ _ _ hmem]
        exact List.mem_append_left _ (hInv.clientsSub k hk)
      · rw [length_mapSet_notMem _ _ _ hmem]
        exact Nat.succ_le_of_lt hlen

theorem lobbyInv_markInactive (cfgMax : Nat) (l : Lobby) (email : String) (now : Nat)
    (hInv : LobbyInv cfgMax l) : LobbyInv cfgMax (l.MarkUserInactive email now) := by
  cases h : mapGet l.Users email with
  | some u =>
      rw [markUserInactive_eq_found l email now u h]
      have hmem := mem_mapKeys_of_mapGet_some _ _ _ h
      refine ⟨?_, hInv.clientsNodup, ?_, ?_, hInv.maxEq⟩
      · rw [mapKeys_mapSet_mem _ _ _ hmem]
        exact hInv.usersNodup
      · intro k hk
        rw [mapKeys_mapSet_mem _ _ _ hmem]
        exact hInv.clientsSub k hk
      · rw [length_mapSet_mem _ _ _ hmem]
        exact hInv.usersLe
  | none =>
      rw [markUserInactive_eq_absent l email now h]
      exact hInv

theorem lobbyInv_addClient (cfgMax : Nat) (l : Lobby) (email : String) (c : Client)
    (hInv : LobbyInv cfgMax l) (hmem : email ∈ mapKeys l.Users) :
    LobbyInv cfgMax (l.AddClient email c) := by
  refine ⟨hInv.usersNodup, nodup_mapKeys_mapSet _ _ _ hInv.clientsNodup, ?_,
    hInv.usersLe, hInv.maxEq⟩
  intro k hk
  rcases (mem_mapKeys_mapSet_iff _ _ _ _).mp hk with he | hm
  · exact he ▸ hmem
  · exact hInv.clientsSub k hm

theorem lobbyInv_removeClient (cfgMax : Nat) (l : Lobby) (email : String)
    (hInv : LobbyInv cfgMax l) : LobbyInv cfgMax (l.RemoveClient email) := by
  refine ⟨hInv.usersNodup,
    List.Nodup.sublist (mapKeys_mapErase_sublist _ _) hInv.clientsNodup, ?_,
    hInv.usersLe, hInv.maxEq⟩
  intro k hk
  exact hInv.clientsSub k ((mapKeys_mapErase_sublist _ _).subset hk)

theorem lobbyInv_startWebSocket (cfgMax : Nat) (l : Lobby)
    (hInv : LobbyInv cfgMax l) : LobbyInv cfgMax l.StartWebSocket :=
  ⟨hInv.usersNodup, hInv.clientsNodup, hInv.clientsSub, hInv.usersLe, hInv.maxEq⟩

theorem lobbyInv_addHistory (cfgMax : Nat) (l : Lobby) (msg : Message)
    (hInv : LobbyInv cfgMax l) : LobbyInv cfgMax (l.AddMessageToHistory msg) :=
  ⟨hInv.usersNodup, hInv.clientsNodup, hInv.clientsSub, hInv.usersLe, hInv.maxEq⟩

theorem lobbyInv_fanOut (cfgMax : Nat) (msg : Message) (cls : List (String × Client))
    (lobby : Lobby) (chans : List (Nat × Chan)) (hInv : LobbyInv cfgMax lobby) :
    LobbyInv cfgMax (fanOut msg cls lobby chans).1 := by
  obtain ⟨cl2, heq, hsub⟩ := fanOut_toLobby msg cls lobby chans
  rw [heq]
  refine ⟨hInv.usersNodup,
    List.Nodup.sublist (hsub.map Prod.fst) hInv.clientsNodup, ?_,
    hInv.usersLe, hInv.maxEq⟩
  intro k hk
  exact hInv.clientsSub k ((hsub.map Prod.fst).subset hk)

theorem stInv_login (cfgMax : Nat) (st : ServerState) (email : String)
    (h : StInv cfgMax st) : StInv cfgMax (login cfgMax st email).1 := by
  obtain ⟨hsh, hch⟩ := h
  rcases hsh with hnil | ⟨lid0, L0, heq, hInv⟩
  · -- empty registry: a fresh lobby is created
    have hF : FindLobbyByUserEmail st email = none := by
      unfold FindLobbyByUserEmail
      rw [hnil]
      rfl
    have hf2 : st.lobbies.find? (fun q => q.2.CanAcceptNewUsers) = none := by
      rw [hnil]
      rfl
    have hany : st.lobbies.any (fun q => q.2.IsFull) = false := by
      rw [hnil]
      rfl
    have hG := getOrCreate_eq_create cfgMax st hf2 hany
    by_cases hacc : (NewLobby ("lobby-" ++ toString st.now) cfgMax st.now).CanAcceptNewUsers = true
    · rw [login_eq_target_ok cfgMax st _ email _ hF hG hacc]
      have hcap : 0 < cfgMax := by
        have := (canAccept_iff _).mp hacc
        simpa [NewLobby] using this
      refine ⟨Or.inr ⟨"lobby-" ++ toString st.now,
        ((NewLobby ("lobby-" ++ toString st.now) cfgMax st.now).AddUser email st.now).1,
        ?_, ?_⟩, ?_⟩
      · rw [hnil]
        simp [mapSet]
      · refine lobbyInv_addUser cfgMax _ email st.now ?_ ?_
        · refine ⟨?_, ?_, ?_, ?_, ?_⟩ <;> simp [NewLobby]
        · intro _
          simpa [NewLobby] using hcap
      · exact hch
    · have hacc2 : (NewLobby ("lobby-" ++ toString st.now) cfgMax st.now).CanAcceptNewUsers = false := by
        cases hb : (NewLobby ("lobby-" ++ toString st.now) cfgMax st.now).CanAcceptNewUsers
        · rfl
        · exact absurd hb hacc
      rw [login_eq_target_full cfgMax st _ email _ hF hG hacc2]
      refine ⟨Or.inr ⟨"lobby-" ++ toString st.now,
        NewLobby ("lobby-" ++ toString st.now) cfgMax st.now, ?_, ?_⟩, ?_⟩
      · rw [hnil]
        simp [mapSet]
      · refine ⟨?_, ?_, ?_, ?_, ?_⟩ <;> simp [NewLobby]
      · exact hch
  · -- singleton registry
    by_cases hu : L0.IsUserInLobby email = true
    · have hF : FindLobbyByUserEmail st email = some (lid0, L0) := by
        unfold FindLobbyByUserEmail
        rw [heq]
        simp [List.find?, hu]
      rw [login_eq_reconnect cfgMax st email _ hF]
      refine ⟨Or.inr ⟨lid0, ((lid0, L0).2.AddUser email st.now).1, ?_, ?_⟩, hch⟩
      · rw [heq]
        simp [mapSet]
      · refine lobbyInv_addUser cfgMax L0 email st.now hInv ?_
        intro hnone
        rw [isUserInLobby_iff] at hu
        exact absurd hu ((mapGet_eq_none_iff _ _).mp hnone)
    · have hu2 : L0.IsUserInLobby email = false := by
        cases hb : L0.IsUserInLobby email
        · rfl
        · exact absurd hb hu
      have hF : FindLobbyByUserEmail st email = none := by
        unfold FindLobbyByUserEmail
        rw [heq]
        simp [List.find?, hu2]
      by_cases hacc : L0.CanAcceptNewUsers = true
      · have hf2 : st.lobbies.find? (fun q => q.2.CanAcceptNewUsers) = some (lid0, L0) := by
          rw [heq]
          simp [List.find?, hacc]
        have hG := getOrCreate_eq_found cfgMax st _ hf2
        rw [login_eq_target_ok cfgMax st st email (lid0, L0) hF hG hacc]
        refine ⟨Or.inr ⟨lid0, ((lid0, L0).2.AddUser email st.now).1, ?_, ?_⟩, hch⟩
        · rw [heq]
          simp [mapSet]
        · refine lobbyInv_addUser cfgMax L0 email st.now hInv ?_
          intro _
          exact (canAccept_iff L0).mp hacc
      · have hacc2 : L0.CanAcceptNewUsers = false := by
          cases hb : L0.CanAcceptNewUsers
          · rfl
          · exact absurd hb hacc
        have hf2 : st.lobbies.find? (fun q => q.2.CanAcceptNewUsers) = none := by
          rw [heq]
          simp [List.find?, hacc2]
        have hany : st.lobbies.any (fun q => q.2.IsFull) = true := by
          rw [heq]
          simp [isFull_of_not_canAccept L0 hacc2]
        rw [login_eq_blocked cfgMax st st email hF (getOrCreate_eq_blocked cfgMax st hf2 hany)]
        exact ⟨Or.inr ⟨lid0, L0, heq, hInv⟩, hch⟩

theorem stInv_getLobby (cfgMax : Nat) (st : ServerState) (key : String) (lobby : Lobby)
    (h : StInv cfgMax st) (hg : GetLobby st key = some lobby) :
    st.lobbies = [(key, lobby)] ∧ LobbyInv cfgMax lobby := by
  rcases h.shape with hnil | ⟨lid0, L0, heq, hInv⟩
  · unfold GetLobby at hg
    rw [hnil] at hg
    simp [mapGet] at hg
  · unfold GetLobby at hg
    rw [heq] at hg
    by_cases hk : lid0 = key
    · subst hk
      simp [mapGet] at hg
      subst hg
      exact ⟨heq, hInv⟩
    · simp [mapGet, hk] at hg

theorem lobbyInv_ifStart (cfgMax n : Nat) (l : Lobby) (hInv : LobbyInv cfgMax l) :
    LobbyInv cfgMax (if n = cfgMax then l.StartWebSocket else l) := by
  split
  · exact lobbyInv_startWebSocket cfgMax l hInv
  · exact hInv

theorem stInv_handleRegister (cfgMax : Nat) (st : ServerState) (c : Client)
    (h : StInv cfgMax st)
    (hmem : ∀ L, GetLobby st c.LobbyID = some L → c.Email ∈ mapKeys L.Users) :
    StInv cfgMax (handleRegister cfgMax st c) := by
  cases hg : GetLobby st c.LobbyID with
  | none =>
      rw [handleRegister_eq_noLobby cfgMax st c hg]
      exact h
  | some lobby =>
      obtain ⟨heq, hInv⟩ := stInv_getLobby cfgMax st c.LobbyID lobby h hg
      have hInv2 : LobbyInv cfgMax (lobby.AddClient c.Email c) :=
        lobbyInv_addClient cfgMax lobby c.Email c hInv (hmem lobby hg)
      cases hs : sendAll st.chans c.Send
          (welcomeMessage cfgMax (lobby.AddClient c.Email c) c.Email c.LobbyID st.now ::
            (lobby.AddClient c.Email c).GetMessageHistory) with
      | mk chans1 pan =>
          have hk : mapKeys chans1 = mapKeys st.chans := by
            have h2 := mapKeys_sendAll c.Send
              (welcomeMessage cfgMax (lobby.AddClient c.Email c) c.Email c.LobbyID st.now ::
                (lobby.AddClient c.Email c).GetMessageHistory) st.chans
            rw [hs] at h2
            exact h2
          cases pan with
          | true =>
              have hfin : handleRegister cfgMax st c =
                  { st with lobbies := mapSet st.lobbies c.LobbyID (lobby.AddClient c.Email c),
                            chans := chans1, crashed := true } := by
                rw [handleRegister_eq_found cfgMax st c lobby hg, hs]
              rw [hfin]
              refine ⟨Or.inr ⟨c.LobbyID, lobby.AddClient c.Email c, ?_, hInv2⟩, ?_⟩
              · show mapSet st.lobbies c.LobbyID (lobby.AddClient c.Email c) = _
                rw [heq]
                simp [mapSet]
              · intro cid hc
                exact h.chansLt cid (by rwa [hk] at hc)
          | false =>
              have hfin : handleRegister cfgMax st c =
                  { st with
                    lobbies := (mapSet st.lobbies c.LobbyID
                      (if (lobby.AddClient c.Email c).GetConnectedClientCount = cfgMax
                       then (lobby.AddClient c.Email c).StartWebSocket
                       else lobby.AddClient c.Email c)),
                    chans := chans1 } := by
                rw [handleRegister_eq_found cfgMax st c lobby hg, hs]
              rw [hfin]
              refine ⟨Or.inr ⟨c.LobbyID,
                (if (lobby.AddClient c.Email c).GetConnectedClientCount = cfgMax
                 then (lobby.AddClient c.Email c).StartWebSocket
                 else lobby.AddClient c.Email c), ?_,
                lobbyInv_ifStart cfgMax _ _ hInv2⟩, ?_⟩
              · show mapSet st.lobbies c.LobbyID _ = _
                rw [heq]
                simp [mapSet]
              · intro cid hc
                exact h.chansLt cid (by rwa [hk] at hc)

theorem stInv_handleUnregister (cfgMax : Nat) (st : ServerState) (c : Client)
    (h : StInv cfgMax st) : StInv cfgMax (handleUnregister st c) := by
  cases hg : GetLobby st c.LobbyID with
  | none =>
      rw [handleUnregister_eq_noLobby st c hg]
      exact h
  | some lobby =>
      obtain ⟨heq, hInv⟩ := stInv_getLobby cfgMax st c.LobbyID lobby h hg
      have hInv2 : LobbyInv cfgMax (lobby.RemoveClient c.Email) :=
        lobbyInv_removeClient cfgMax lobby c.Email hInv
      cases hs : chanClose st.chans c.Send with
      | mk chans1 pan =>
          have hk : mapKeys chans1 = mapKeys st.chans := by
            have h2 := mapKeys_chanClose st.chans c.Send
            rw [hs] at h2
            exact h2
          cases pan with
          | true =>
              have hfin : handleUnregister st c =
                  { st with lobbies := mapSet st.lobbies c.LobbyID (lobby.RemoveClient c.Email),
                            chans := chans1, crashed := true } := by
                rw [handleUnregister_eq_found st c lobby hg, hs]
              rw [hfin]
              refine ⟨Or.inr ⟨c.LobbyID, lobby.RemoveClient c.Email, ?_, hInv2⟩, ?_⟩
              · show mapSet st.lobbies c.LobbyID (lobby.RemoveClient c.Email) = _
                rw [heq]
                simp [mapSet]
              · intro cid hc
                exact h.chansLt cid (by rwa [hk] at hc)
          | false =>
              have hfin : handleUnregister st c =
                  { st with
                    lobbies := (mapSet st.lobbies c.LobbyID
                      ((lobby.RemoveClient c.Email).MarkUserInactive c.Email st.now)),
                    chans := chans1 } := by
                rw [handleUnregister_eq_found st c lobby hg, hs]
              rw [hfin]
              refine ⟨Or.inr ⟨c.LobbyID,
                (lobby.RemoveClient c.Email).MarkUserInactive c.Email st.now, ?_,
                lobbyInv_markInactive cfgMax _ c.Email st.now hInv2⟩, ?_⟩
              · show mapSet st.lobbies c.LobbyID _ = _
                rw [heq]
                simp [mapSet]
              · intro cid hc
                exact h.chansLt cid (by rwa [hk] at hc)

theorem stInv_handleBroadcast (cfgMax : Nat) (st : ServerState) (lobbyID : String)
    (msg : Message) (rf : Bool) (h : StInv cfgMax st) :
    StInv cfgMax (handleBroadcast st lobbyID msg rf) := by
  cases hg : GetLobby st lobbyID with
  | none =>
      rw [handleBroadcast_eq_noLobby st lobbyID msg rf hg]
      exact h
  | some lobby =>
      obtain ⟨heq, hInv⟩ := stInv_getLobby cfgMax st lobbyID lobby h hg
      rw [handleBroadcast_eq_found st lobbyID msg rf lobby hg]
      have hInv2 : LobbyInv cfgMax
          (if msg.type = MessageType.chat then lobby.AddMessageToHistory msg else lobby) := by
        split
        · exact lobbyInv_addHistory cfgMax lobby msg hInv
        · exact hInv
      refine ⟨Or.inr ⟨lobbyID,
        (fanOut msg
          (if msg.type = MessageType.chat then lobby.AddMessageToHistory msg else lobby).GetAllClients
          (if msg.type = MessageType.chat then lobby.AddMessageToHistory msg else lobby)
          st.chans).1, ?_, lobbyInv_fanOut cfgMax msg _ _ st.chans hInv2⟩, ?_⟩
      · show mapSet st.lobbies lobbyID _ = _
        rw [heq]
        simp [mapSet]
      · intro cid hc
        have hk := mapKeys_fanOut msg
          (if msg.type = MessageType.chat then lobby.AddMessageToHistory msg
           else lobby).GetAllClients
          (if msg.type = MessageType.chat then lobby.AddMessageToHistory msg else lobby)
          st.chans
        exact h.chansLt cid (by rwa [hk] at hc)

theorem stInv_stepCore (cfgMax : Nat) (st : ServerState) (e : Event)
    (h : StInv cfgMax st) : StInv cfgMax (stepCore cfgMax st e) := by
  cases e with
  | login email => exact stInv_login cfgMax st email h
  | connect email lobbyID =>
      cases hchk : handleWebSocketCheck st email lobbyID with
      | some r =>
          rw [stepCore_connect_rejected cfgMax st email lobbyID r hchk]
          exact h
      | none =>
          rw [stepCore_connect_ok cfgMax st email lobbyID hchk]
          have hval : ∃ L, GetLobby st lobbyID = some L ∧ L.IsUserInLobby email = true := by
            unfold handleWebSocketCheck at hchk
            by_cases hmp : email = "" ∨ lobbyID = ""
            · rw [if_pos hmp] at hchk
              cases hchk
            · rw [if_neg hmp] at hchk
              cases hgl : GetLobby st lobbyID with
              | none => rw [hgl] at hchk; cases hchk
              | some L =>
                  rw [hgl] at hchk
                  by_cases hu : L.IsUserInLobby email = true
                  · exact ⟨L, rfl, hu⟩
                  · simp [hu] at hchk
          obtain ⟨L, hgl, hu⟩ := hval
          have h2 : StInv cfgMax
              { st with
                chans := mapSet st.chans st.nextChan { buf := [], cap := 256, closed := false },
                nextChan := st.nextChan + 1 } := by
            refine ⟨h.shape, ?_⟩
            intro cid hc
            show cid < st.nextChan + 1
            rcases (mem_mapKeys_mapSet_iff _ _ _ _).mp hc with he | hm
            · omega
            · have := h.chansLt cid hm
              omega
          refine stInv_handleRegister cfgMax _ _ h2 ?_
          intro L2 hg2
          have hsame : GetLobby
              { st with
                chans := mapSet st.chans st.nextChan { buf := [], cap := 256, closed := false },
                nextChan := st.nextChan + 1 } lobbyID = GetLobby st lobbyID := rfl
          rw [hsame, hgl] at hg2
          cases hg2
          rw [← isUserInLobby_iff]
          exact hu
  | unregister c => exact stInv_handleUnregister cfgMax st c h
  | broadcast lobbyID msg rf => exact stInv_handleBroadcast cfgMax st lobbyID msg rf h

theorem stInv_step (cfgMax : Nat) (st : ServerState) (e : Event)
    (h : StInv cfgMax st) : StInv cfgMax (step cfgMax st e) := by
  unfold step
  by_cases hcr : st.crashed = true
  · rw [if_pos hcr]
    exact h
  · rw [if_neg hcr]
    have h2 := stInv_stepCore cfgMax st e h
    exact ⟨h2.shape, h2.chansLt⟩

theorem stInv_init (cfgMax : Nat) : StInv cfgMax initState := by
  refine ⟨Or.inl rfl, ?_⟩
  intro cid hc
  simp [initState] at hc

theorem stInv_run_from (cfgMax : Nat) (tr : List Event) :
    ∀ st, StInv cfgMax st → StInv cfgMax (run cfgMax st tr) := by
  induction tr with
  | nil => intro st h; exact h
  | cons e rest ih =>
      intro st h
      exact ih (step cfgMax st e) (stInv_step cfgMax st e h)

theorem stInv_run (cfgMax : Nat) (tr : List Event) :
    StInv cfgMax (run cfgMax initState tr) :=
  stInv_run_from cfgMax tr initState (stInv_init cfgMax)

/-! ## Observations of single transitions -/

theorem usersOf_eq_of_lobbies (st st2 : ServerState) (h : st2.lobbies = st.lobbies)
    (lid : String) : usersOf st2 lid = usersOf st lid := by
  unfold usersOf lobbyOf
  rw [h]

theorem usersOf_set_general (st st2 : ServerState) (key : String) (lobby2 : Lobby)
    (h2 : st2.lobbies = mapSet st.lobbies key lobby2) (lid : String) :
    usersOf st2 lid = (if key = lid then lobby2.Users else usersOf st lid) := by
  unfold usersOf lobbyOf
  rw [h2]
  by_cases hk : key = lid
  · subst hk
    rw [mapGet_mapSet_self]
    simp
  · rw [mapGet_mapSet_ne _ _ _ _ hk, if_neg hk]

theorem usersOf_sameUsers_general (st st2 : ServerState) (key : String)
    (lobby lobby2 : Lobby) (hg : mapGet st.lobbies key = some lobby)
    (h2 : st2.lobbies = mapSet st.lobbies key lobby2)
    (husers : lobby2.Users = lobby.Users) (lid : String) :
    usersOf st2 lid = usersOf st lid := by
  rw [usersOf_set_general st st2 key lobby2 h2 lid]
  by_cases hk : key = lid
  · subst hk
    rw [if_pos rfl, husers]
    unfold usersOf lobbyOf
    rw [hg]
  · rw [if_neg hk]

theorem usersOf_mono_general (st st2 : ServerState) (key : String)
    (lobby lobby2 : Lobby) (lid : String)
    (hg : mapGet st.lobbies key = some lobby)
    (h2 : st2.lobbies = mapSet st.lobbies key lobby2)
    (hsub : mapKeys lobby.Users ⊆ mapKeys lobby2.Users)
    (hlen : lobby.Users.length ≤ lobby2.Users.length) :
    mapKeys (usersOf st lid) ⊆ mapKeys (usersOf st2 lid) ∧
    (usersOf st lid).length ≤ (usersOf st2 lid).length := by
  rw [usersOf_set_general st st2 key lobby2 h2 lid]
  by_cases hk : key = lid
  · subst hk
    rw [if_pos rfl]
    have h1 : usersOf st key = lobby.Users := by
      unfold usersOf lobbyOf
      rw [hg]
    rw [h1]
    exact ⟨hsub, hlen⟩
  · rw [if_neg hk]
    exact ⟨fun a ha => ha, le_refl _⟩

theorem addUser_users_mono (l : Lobby) (email : String) (now : Nat) :
    mapKeys l.Users ⊆ mapKeys (l.AddUser email now).1.Users ∧
    l.Users.length ≤ (l.AddUser email now).1.Users.length := by
  cases h : mapGet l.Users email with
  | some u =>
      rw [addUser_eq_existing l email now u h]
      have hmem := mem_mapKeys_of_mapGet_some _ _ _ h
      constructor
      · show mapKeys l.Users ⊆ mapKeys (mapSet l.Users email _)
        rw [mapKeys_mapSet_mem _ _ _ hmem]
        exact fun a ha => ha
      · show l.Users.length ≤ (mapSet l.Users email _).length
        rw [length_mapSet_mem _ _ _ hmem]
  | none =>
      rw [addUser_eq_new l email now h]
      have hmem : email ∉ mapKeys l.Users := (mapGet_eq_none_iff _ _).mp h
      constructor
      · show mapKeys l.Users ⊆ mapKeys (mapSet l.Users email _)
        rw [mapKeys_mapSet_notMem _ _ _ hmem]
        exact fun a ha => List.mem_append_left _ ha
      · show l.Users.length ≤ (mapSet l.Users email _).length
        rw [length_mapSet_notMem _ _ _ hmem]
        exact Nat.le_succ _

theorem markInactive_users_keys (l : Lobby) (email : String) (now : Nat) :
    mapKeys (l.MarkUserInactive email now).Users = mapKeys l.Users ∧
    (l.MarkUserInactive email now).Users.length = l.Users.length := by
  cases h : mapGet l.Users email with
  | some u =>
      rw [markUserInactive_eq_found l email now u h]
      have hmem := mem_mapKeys_of_mapGet_some _ _ _ h
      exact ⟨mapKeys_mapSet_mem _ _ _ hmem, length_mapSet_mem _ _ _ hmem⟩
  | none =>
      rw [markUserInactive_eq_absent l email now h]
      exact ⟨rfl, rfl⟩

theorem step_users_mono (cfgMax : Nat) (st : ServerState) (e : Event) (lid : String)
    (h : StInv cfgMax st) :
    mapKeys (usersOf st lid) ⊆ mapKeys (usersOf (step cfgMax st e) lid) ∧
    (usersOf st lid).length ≤ (usersOf (step cfgMax st e) lid).length := by
  unfold step
  by_cases hcr : st.crashed = true
  · rw [if_pos hcr]
    exact ⟨fun a ha => ha, le_refl _⟩
  · rw [if_neg hcr]
    have hred : usersOf { stepCore cfgMax st e with now := (stepCore cfgMax st e).now + 1 } lid
        = usersOf (stepCore cfgMax st e) lid :=
      usersOf_eq_of_lobbies (stepCore cfgMax st e) _ rfl lid
    rw [hred]
    cases e with
    | login email =>
        show mapKeys (usersOf st lid) ⊆ mapKeys (usersOf (login cfgMax st email).1 lid) ∧
          (usersOf st lid).length ≤ (usersOf (login cfgMax st email).1 lid).length
        rcases h.shape with hnil | ⟨lid0, L0, heq, hInv⟩
        · have husers : usersOf st lid = [] := by
            unfold usersOf lobbyOf
            rw [hnil]
            rfl
          refine ⟨?_, ?_⟩ <;> simp [husers]
        · have hget : mapGet st.lobbies lid0 = some L0 := by
            rw [heq]
            simp [mapGet]
          by_cases hu : L0.IsUserInLobby email = true
          · have hF : FindLobbyByUserEmail st email = some (lid0, L0) := by
              unfold FindLobbyByUserEmail
              rw [heq]
              simp [List.find?, hu]
            rw [login_eq_reconnect cfgMax st email _ hF]
            exact usersOf_mono_general st _ lid0 L0 _ lid hget rfl
              (addUser_users_mono L0 email st.now).1 (addUser_users_mono L0 email st.now).2
          · have hu2 : L0.IsUserInLobby email = false := by
              cases hb : L0.IsUserInLobby email
              · rfl
              · exact absurd hb hu
            have hF : FindLobbyByUserEmail st email = none := by
              unfold FindLobbyByUserEmail
              rw [heq]
              simp [List.find?, hu2]
            by_cases hacc : L0.CanAcceptNewUsers = true
            · have hf2 : st.lobbies.find? (fun q => q.2.CanAcceptNewUsers) = some (lid0, L0) := by
                rw [heq]
                simp [List.find?, hacc]
              rw [login_eq_target_ok cfgMax st st email (lid0, L0) hF
                (getOrCreate_eq_found cfgMax st _ hf2) hacc]
              exact usersOf_mono_general st _ lid0 L0 _ lid hget rfl
                (addUser_users_mono L0 email st.now).1 (addUser_users_mono L0 email st.now).2
            · have hacc2 : L0.CanAcceptNewUsers = false := by
                cases hb : L0.CanAcceptNewUsers
                · rfl
                · exact absurd hb hacc
              have hf2 : st.lobbies.find? (fun q => q.2.CanAcceptNewUsers) = none := by
                rw [heq]
                simp [List.find?, hacc2]
              have hany : st.lobbies.any (fun q => q.2.IsFull) = true := by
                rw [heq]
                simp [isFull_of_not_canAccept L0 hacc2]
              rw [login_eq_blocked cfgMax st st email hF
                (getOrCreate_eq_blocked cfgMax st hf2 hany)]
              exact ⟨fun a ha => ha, le_refl _⟩
    | connect email lobbyID =>
        cases hchk : handleWebSocketCheck st email lobbyID with
        | some r =>
            rw [stepCore_connect_rejected cfgMax st email lobbyID r hchk]
            exact ⟨fun a ha => ha, le_refl _⟩
        | none =>
            rw [stepCore_connect_ok cfgMax st email lobbyID hchk]
            generalize hc2 :
              ({ Email := email, LobbyID := lobbyID, Send := st.nextChan, JoinedAt := st.now } : Client) = c
            generalize hst2 :
              ({ st with
                 chans := mapSet st.chans st.nextChan { buf := [], cap := 256, closed := false },
                 nextChan := st.nextChan + 1 } : ServerState) = st2
            have husers : ∀ l2, usersOf st2 l2 = usersOf st l2 := by
              intro l2
              exact usersOf_eq_of_lobbies st st2 (by rw [← hst2]) l2
            cases hg : GetLobby st2 c.LobbyID with
            | none =>
                rw [handleRegister_eq_noLobby cfgMax st2 c hg, husers]
                exact ⟨fun a ha => ha, le_refl _⟩
            | some lobby =>
                have hg2 : mapGet st2.lobbies c.LobbyID = some lobby := hg
                cases hs : sendAll st2.chans c.Send
                    (welcomeMessage cfgMax (lobby.AddClient c.Email c) c.Email c.LobbyID st2.now ::
                      (lobby.AddClient c.Email c).GetMessageHistory) with
                | mk chans1 pan =>
                    cases pan with
                    | true =>
                        have hfin : handleRegister cfgMax st2 c =
                            { st2 with
                              lobbies := mapSet st2.lobbies c.LobbyID (lobby.AddClient c.Email c),
                              chans := chans1, crashed := true } := by
                          rw [handleRegister_eq_found cfgMax st2 c lobby hg, hs]
                        rw [hfin]
                        have hm := usersOf_mono_general st2
                          { st2 with
                            lobbies := mapSet st2.lobbies c.LobbyID (lobby.AddClient c.Email c),
                            chans := chans1, crashed := true }
                          c.LobbyID lobby
                          (lobby.AddClient c.Email c) lid hg2 rfl (fun a ha => ha) (le_refl _)
                        rw [husers] at hm
                        exact hm
                    | false =>
                        have hfin : handleRegister cfgMax st2 c =
                            { st2 with
                              lobbies := (mapSet st2.lobbies c.LobbyID
                                (if (lobby.AddClient c.Email c).GetConnectedClientCount = cfgMax
                                 then (lobby.AddClient c.Email c).StartWebSocket
                                 else lobby.AddClient c.Email c)),
                              chans := chans1 } := by
                          rw [handleRegister_eq_found cfgMax st2 c lobby hg, hs]
                        rw [hfin]
                        have hus : (if (lobby.AddClient c.Email c).GetConnectedClientCount = cfgMax
                             then (lobby.AddClient c.Email c).StartWebSocket
                             else lobby.AddClient c.Email c).Users = lobby.Users := by
                          split <;> rfl
                        have hm := usersOf_mono_general st2
                          { st2 with
                            lobbies := (mapSet st2.lobbies c.LobbyID
                              (if (lobby.AddClient c.Email c).GetConnectedClientCount = cfgMax
                               then (lobby.AddClient c.Email c).StartWebSocket
                               else lobby.AddClient c.Email c)),
                            chans := chans1 }
                          c.LobbyID lobby
                          (if (lobby.AddClient c.Email c).GetConnectedClientCount = cfgMax
                           then (lobby.AddClient c.Email c).StartWebSocket
                           else lobby.AddClient c.Email c)
                          lid hg2 rfl (by rw [hus]; exact fun a ha => ha)
                          (by rw [hus])
                        rw [husers] at hm
                        exact hm
    | unregister c =>
        show mapKeys (usersOf st lid) ⊆ mapKeys (usersOf (handleUnregister st c) lid) ∧
          (usersOf st lid).length ≤ (usersOf (handleUnregister st c) lid).length
        cases hg : GetLobby st c.LobbyID with
        | none =>
            rw [handleUnregister_eq_noLobby st c hg]
            exact ⟨fun a ha => ha, le_refl _⟩
        | some lobby =>
            have hg2 : mapGet st.lobbies c.LobbyID = some lobby := hg
            cases hs : chanClose st.chans c.Send with
            | mk chans1 pan =>
                cases pan with
                | true =>
                    have hfin : handleUnregister st c =
                        { st with
                          lobbies := mapSet st.lobbies c.LobbyID (lobby.RemoveClient c.Email),
                          chans := chans1, crashed := true } := by
                      rw [handleUnregister_eq_found st c lobby hg, hs]
                    rw [hfin]
                    exact usersOf_mono_general st _ c.LobbyID lobby _ lid hg2 rfl
                      (fun a ha => ha) (le_refl _)
                | false =>
                    have hfin : handleUnregister st c =
                        { st with
                          lobbies := (mapSet st.lobbies c.LobbyID
                            ((lobby.RemoveClient c.Email).MarkUserInactive c.Email st.now)),
                          chans := chans1 } := by
                      rw [handleUnregister_eq_found st c lobby hg, hs]
                    rw [hfin]
                    obtain ⟨hkeys, hlen⟩ :=
                      markInactive_users_keys (lobby.RemoveClient c.Email) c.Email st.now
                    exact usersOf_mono_general st _ c.LobbyID lobby _ lid hg2 rfl
                      (by rw [hkeys]; exact fun a ha => ha)
                      (by rw [hlen]; exact le_refl _)
    | broadcast lobbyID msg rf =>
        show mapKeys (usersOf st lid) ⊆ mapKeys (usersOf (handleBroadcast st lobbyID msg rf) lid) ∧
          (usersOf st lid).length ≤ (usersOf (handleBroadcast st lobbyID msg rf) lid).length
        cases hg : GetLobby st lobbyID with
        | none =>
            rw [handleBroadcast_eq_noLobby st lobbyID msg rf hg]
            exact ⟨fun a ha => ha, le_refl _⟩
        | some lobby =>
            have hg2 : mapGet st.lobbies lobbyID = some lobby := hg
            rw [handleBroadcast_eq_found st lobbyID msg rf lobby hg]
            obtain ⟨cl2, heqf, hsubf⟩ := fanOut_toLobby msg
              (if msg.type = MessageType.chat then lobby.AddMessageToHistory msg
               else lobby).GetAllClients
              (if msg.type = MessageType.chat then lobby.AddMessageToHistory msg else lobby)
              st.chans
            have hus : (fanOut msg
                (if msg.type = MessageType.chat then lobby.AddMessageToHistory msg
                 else lobby).GetAllClients
                (if msg.type = MessageType.chat then lobby.AddMessageToHistory msg else lobby)
                st.chans).1.Users = lobby.Users := by
              rw [heqf]
              show (if msg.type = MessageType.chat then lobby.AddMessageToHistory msg
                    else lobby).Users = lobby.Users
              split <;> rfl
            exact usersOf_mono_general st _ lobbyID lobby _ lid hg2 rfl
              (by rw [hus]; exact fun a ha => ha) (by rw [hus])

theorem check_none_elim (st : ServerState) (email lobbyID : String)
    (hchk : handleWebSocketCheck st email lobbyID = none) :
    ∃ L, GetLobby st lobbyID = some L ∧ L.IsUserInLobby email = true := by
  unfold handleWebSocketCheck at hchk
  by_cases hmp : email = "" ∨ lobbyID = ""
  · rw [if_pos hmp] at hchk
    cases hchk
  · rw [if_neg hmp] at hchk
    cases hgl : GetLobby st lobbyID with
    | none => rw [hgl] at hchk; cases hchk
    | some L =>
        rw [hgl] at hchk
        by_cases hu : L.IsUserInLobby email = true
        · exact ⟨L, rfl, hu⟩
        · simp [hu] at hchk

theorem startedOf_eq_of_lobbies (st st2 : ServerState) (h : st2.lobbies = st.lobbies)
    (lid : String) : startedOf st2 lid = startedOf st lid := by
  unfold startedOf lobbyOf
  rw [h]

theorem startedOf_of_nil (st : ServerState) (hnil : st.lobbies = []) (lid : String) :
    startedOf st lid = false := by
  unfold startedOf lobbyOf
  rw [hnil]
  rfl

theorem startedOf_of_get (st : ServerState) (lid : String) (lobby : Lobby)
    (hg : mapGet st.lobbies lid = some lobby) :
    startedOf st lid = lobby.WebSocketStarted := by
  unfold startedOf lobbyOf
  rw [hg]

theorem startedOf_set_general (st st2 : ServerState) (key : String) (lobby2 : Lobby)
    (h2 : st2.lobbies = mapSet st.lobbies key lobby2) (lid : String) :
    startedOf st2 lid = (if key = lid then lobby2.WebSocketStarted else startedOf st lid) := by
  unfold startedOf lobbyOf
  rw [h2]
  by_cases hk : key = lid
  · subst hk
    rw [mapGet_mapSet_self]
    simp
  · rw [mapGet_mapSet_ne _ _ _ _ hk, if_neg hk]

theorem startedOf_sameStarted_general (st st2 : ServerState) (key : String)
    (lobby lobby2 : Lobby) (hg : mapGet st.lobbies key = some lobby)
    (h2 : st2.lobbies = mapSet st.lobbies key lobby2)
    (hst : lobby2.WebSocketStarted = lobby.WebSocketStarted) (lid : String) :
    startedOf st2 lid = startedOf st lid := by
  rw [startedOf_set_general st st2 key lobby2 h2 lid]
  by_cases hk : key = lid
  · subst hk
    rw [if_pos rfl, hst, startedOf_of_get st key lobby hg]
  · rw [if_neg hk]

/-- The transitions that set the WebSocketStarted flag, as the code actually
implements them: a register request (reaching the coordinator through a
validated websocket connect) whose AddClient brings the connected-client
count, len(Clients), to config.MaxUsersPerLobby. -/
def registerStarts (cfgMax : Nat) (st : ServerState) (e : Event) (lid : String) : Bool :=
  match e with
  | .connect email lid2 =>
      (lid2 == lid) && !st.crashed && (handleWebSocketCheck st email lid2).isNone &&
      (match GetLobby st lid2 with
       | some L => decide ((L.AddClient email
           { Email := email, LobbyID := lid2, Send := st.nextChan,
             JoinedAt := st.now }).GetConnectedClientCount = cfgMax)
       | none => false)
  | _ => false

theorem step_started (cfgMax : Nat) (st : ServerState) (e : Event) (lid : String)
    (h : StInv cfgMax st) :
    startedOf (step cfgMax st e) lid =
      (startedOf st lid || registerStarts cfgMax st e lid) := by
  unfold step
  by_cases hcr : st.crashed = true
  · rw [if_pos hcr]
    have hrs : registerStarts cfgMax st e lid = false := by
      cases e <;> simp [registerStarts, hcr]
    rw [hrs, Bool.or_false]
  · rw [if_neg hcr]
    have hcr2 : st.crashed = false := by
      cases hb : st.crashed
      · rfl
      · exact absurd hb hcr
    have hred : startedOf { stepCore cfgMax st e with now := (stepCore cfgMax st e).now + 1 } lid
        = startedOf (stepCore cfgMax st e) lid :=
      startedOf_eq_of_lobbies (stepCore cfgMax st e) _ rfl lid
    rw [hred]
    cases e with
    | login email =>
        have hrs : registerStarts cfgMax st (.login email) lid = false := rfl
        rw [hrs, Bool.or_false]
        show startedOf (login cfgMax st email).1 lid = startedOf st lid
        rcases h.shape with hnil | ⟨lid0, L0, heq, hInv⟩
        · have hF : FindLobbyByUserEmail st email = none := by
            unfold FindLobbyByUserEmail
            rw [hnil]
            rfl
          have hf2 : st.lobbies.find? (fun q => q.2.CanAcceptNewUsers) = none := by
            rw [hnil]
            rfl
          have hany : st.lobbies.any (fun q => q.2.IsFull) = false := by
            rw [hnil]
            rfl
          have hG := getOrCreate_eq_create cfgMax st hf2 hany
          by_cases hacc : (NewLobby ("lobby-" ++ toString st.now) cfgMax st.now).CanAcceptNewUsers = true
          · rw [login_eq_target_ok cfgMax st _ email _ hF hG hacc]
            have hs2 : (((NewLobby ("lobby-" ++ toString st.now) cfgMax st.now).AddUser
                email st.now).1).WebSocketStarted = false := by
              cases hga : mapGet (NewLobby ("lobby-" ++ toString st.now) cfgMax st.now).Users email with
              | some u => rw [addUser_eq_existing _ _ _ _ hga]; rfl
              | none => rw [addUser_eq_new _ _ _ hga]; rfl
            rw [startedOf_set_general st _ ("lobby-" ++ toString st.now)
              (((NewLobby ("lobby-" ++ toString st.now) cfgMax st.now).AddUser email st.now).1)
              (mapSet_mapSet st.lobbies ("lobby-" ++ toString st.now)
                (NewLobby ("lobby-" ++ toString st.now) cfgMax st.now)
                (((NewLobby ("lobby-" ++ toString st.now) cfgMax st.now).AddUser email st.now).1))
              lid]
            split
            · rw [hs2, startedOf_of_nil st hnil lid]
            · rfl
          · have hacc2 : (NewLobby ("lobby-" ++ toString st.now) cfgMax st.now).CanAcceptNewUsers = false := by
              cases hb : (NewLobby ("lobby-" ++ toString st.now) cfgMax st.now).CanAcceptNewUsers
              · rfl
              · exact absurd hb hacc
            rw [login_eq_target_full cfgMax st _ email _ hF hG hacc2]
            rw [startedOf_set_general st _ ("lobby-" ++ toString st.now)
              (NewLobby ("lobby-" ++ toString st.now) cfgMax st.now) rfl lid]
            split
            · rw [startedOf_of_nil st hnil lid]
              rfl
            · rfl
        · have hget : mapGet st.lobbies lid0 = some L0 := by
            rw [heq]
            simp [mapGet]
          by_cases hu : L0.IsUserInLobby email = true
          · have hF : FindLobbyByUserEmail st email = some (lid0, L0) := by
              unfold FindLobbyByUserEmail
              rw [heq]
              simp [List.find?, hu]
            rw [login_eq_reconnect cfgMax st email _ hF]
            refine startedOf_sameStarted_general st _ lid0 L0 _ hget rfl ?_ lid
            cases hga : mapGet L0.Users email with
            | some u => rw [addUser_eq_existing _ _ _ _ hga]
            | none => rw [addUser_eq_new _ _ _ hga]
          · have hu2 : L0.IsUserInLobby email = false := by
              cases hb : L0.IsUserInLobby email
              · rfl
              · exact absurd hb hu
            have hF : FindLobbyByUserEmail st email = none := by
              unfold FindLobbyByUserEmail
              rw [heq]
              simp [List.find?, hu2]
            by_cases hacc : L0.CanAcceptNewUsers = true
            · have hf2 : st.lobbies.find? (fun q => q.2.CanAcceptNewUsers) = some (lid0, L0) := by
                rw [heq]
                simp [List.find?, hacc]
              rw [login_eq_target_ok cfgMax st st email (lid0, L0) hF
                (getOrCreate_eq_found cfgMax st _ hf2) hacc]
              refine startedOf_sameStarted_general st _ lid0 L0 _ hget rfl ?_ lid
              cases hga : mapGet L0.Users email with
              | some u => rw [addUser_eq_existing _ _ _ _ hga]
              | none => rw [addUser_eq_new _ _ _ hga]
            · have hacc2 : L0.CanAcceptNewUsers = false := by
                cases hb : L0.CanAcceptNewUsers
                · rfl
                · exact absurd hb hacc
              have hf2 : st.lobbies.find? (fun q => q.2.CanAcceptNewUsers) = none := by
                rw [heq]
                simp [List.find?, hacc2]
              have hany : st.lobbies.any (fun q => q.2.IsFull) = true := by
                rw [heq]
                simp [isFull_of_not_canAccept L0 hacc2]
              rw [login_eq_blocked cfgMax st st email hF
                (getOrCreate_eq_blocked cfgMax st hf2 hany)]
    | connect email lobbyID =>
        cases hchk : handleWebSocketCheck st email lobbyID with
        | some r =>
            rw [stepCore_connect_rejected cfgMax st email lobbyID r hchk]
            have hrs : registerStarts cfgMax st (.connect email lobbyID) lid = false := by
              simp [registerStarts, hchk]
            rw [hrs, Bool.or_false]
        | none =>
            obtain ⟨L, hgl, hu⟩ := check_none_elim st email lobbyID hchk
            rw [stepCore_connect_ok cfgMax st email lobbyID hchk]
            have hg2 : GetLobby
                { st with
                  chans := mapSet st.chans st.nextChan { buf := [], cap := 256, closed := false },
                  nextChan := st.nextChan + 1 }
                ({ Email := email, LobbyID := lobbyID, Send := st.nextChan,
                   JoinedAt := st.now } : Client).LobbyID = some L := hgl
            have hget : mapGet
                (mapSet st.chans st.nextChan { buf := [], cap := 256, closed := false })
                st.nextChan = some { buf := [], cap := 256, closed := false } :=
              mapGet_mapSet_self _ _ _
            have hsend := sendAll_open st.nextChan
              (welcomeMessage cfgMax
                  (L.AddClient email
                    { Email := email, LobbyID := lobbyID, Send := st.nextChan, JoinedAt := st.now })
                  email lobbyID st.now ::
                (L.AddClient email
                    { Email := email, LobbyID := lobbyID, Send := st.nextChan, JoinedAt := st.now }).GetMessageHistory)
              (mapSet st.chans st.nextChan { buf := [], cap := 256, closed := false })
              { buf := [], cap := 256, closed := false } hget rfl
            have hL : startedOf (handleRegister cfgMax
                { st with
                  chans := mapSet st.chans st.nextChan { buf := [], cap := 256, closed := false },
                  nextChan := st.nextChan + 1 }
                { Email := email, LobbyID := lobbyID, Send := st.nextChan, JoinedAt := st.now }) lid =
                (if lobbyID = lid
                 then (if (L.AddClient email
                        { Email := email, LobbyID := lobbyID, Send := st.nextChan,
                          JoinedAt := st.now }).GetConnectedClientCount = cfgMax
                       then (L.AddClient email
                        { Email := email, LobbyID := lobbyID, Send := st.nextChan,
                          JoinedAt := st.now }).StartWebSocket
                       else L.AddClient email
                        { Email := email, LobbyID := lobbyID, Send := st.nextChan,
                          JoinedAt := st.now }).WebSocketStarted
                 else startedOf st lid) := by
              rw [handleRegister_eq_found cfgMax _ _ L hg2, hsend]
              exact startedOf_set_general st _ lobbyID _ rfl lid
            rw [hL]
            by_cases hk : lobbyID = lid
            · subst hk
              rw [if_pos rfl]
              by_cases hcnt : (L.AddClient email
                  { Email := email, LobbyID := lobbyID, Send := st.nextChan,
                    JoinedAt := st.now }).GetConnectedClientCount = cfgMax
              · rw [if_pos hcnt]
                have hlhs : (L.AddClient email
                    { Email := email, LobbyID := lobbyID, Send := st.nextChan,
                      JoinedAt := st.now }).StartWebSocket.WebSocketStarted = true := rfl
                rw [hlhs]
                have hrs : registerStarts cfgMax st (.connect email lobbyID) lobbyID = true := by
                  simp [registerStarts, hchk, hcr2, hgl, hcnt]
                rw [hrs, Bool.or_true]
              · rw [if_neg hcnt]
                have hlhs : (L.AddClient email
                    { Email := email, LobbyID := lobbyID, Send := st.nextChan,
                      JoinedAt := st.now }).WebSocketStarted = L.WebSocketStarted := rfl
                rw [hlhs]
                have hrs : registerStarts cfgMax st (.connect email lobbyID) lobbyID = false := by
                  simp [registerStarts, hchk, hcr2, hgl, hcnt]
                rw [hrs, Bool.or_false, startedOf_of_get st lobbyID L hgl]
            · rw [if_neg hk]
              have hrs : registerStarts cfgMax st (.connect email lobbyID) lid = false := by
                have hbeq : (lobbyID == lid) = false := by
                  simp [hk]
                simp [registerStarts, hbeq]
              rw [hrs, Bool.or_false]
    | unregister c =>
        have hrs : registerStarts cfgMax st (.unregister c) lid = false := rfl
        rw [hrs, Bool.or_false]
        show startedOf (handleUnregister st c) lid = startedOf st lid
        cases hg : GetLobby st c.LobbyID with
        | none => rw [handleUnregister_eq_noLobby st c hg]
        | some lobby =>
            have hg2 : mapGet st.lobbies c.LobbyID = some lobby := hg
            cases hs : chanClose st.chans c.Send with
            | mk chans1 pan =>
                cases pan with
                | true =>
                    have hfin : handleUnregister st c =
                        { st with
                          lobbies := mapSet st.lobbies c.LobbyID (lobby.RemoveClient c.Email),
                          chans := chans1, crashed := true } := by
                      rw [handleUnregister_eq_found st c lobby hg, hs]
                    rw [hfin]
                    exact startedOf_sameStarted_general st _ c.LobbyID lobby
                      (lobby.RemoveClient c.Email) hg2 rfl rfl lid
                | false =>
                    have hfin : handleUnregister st c =
                        { st with
                          lobbies := (mapSet st.lobbies c.LobbyID
                            ((lobby.RemoveClient c.Email).MarkUserInactive c.Email st.now)),
                          chans := chans1 } := by
                      rw [handleUnregister_eq_found st c lobby hg, hs]
                    rw [hfin]
                    refine startedOf_sameStarted_general st _ c.LobbyID lobby _ hg2 rfl ?_ lid
                    cases hga : mapGet (lobby.RemoveClient c.Email).Users c.Email with
                    | some u => rw [markUserInactive_eq_found _ _ _ _ hga]; rfl
                    | none => rw [markUserInactive_eq_absent _ _ _ hga]; rfl
    | broadcast lobbyID msg rf =>
        have hrs : registerStarts cfgMax st (.broadcast lobbyID msg rf) lid = false := rfl
        rw [hrs, Bool.or_false]
        show startedOf (handleBroadcast st lobbyID msg rf) lid = startedOf st lid
        cases hg : GetLobby st lobbyID with
        | none => rw [handleBroadcast_eq_noLobby st lobbyID msg rf hg]
        | some lobby =>
            have hg2 : mapGet st.lobbies lobbyID = some lobby := hg
            rw [handleBroadcast_eq_found st lobbyID msg rf lobby hg]
            obtain ⟨cl2, heqf, hsubf⟩ := fanOut_toLobby msg
              (if msg.type = MessageType.chat then lobby.AddMessageToHistory msg
               else lobby).GetAllClients
              (if msg.type = MessageType.chat then lobby.AddMessageToHistory msg else lobby)
              st.chans
            refine startedOf_sameStarted_general st _ lobbyID lobby _ hg2 rfl ?_ lid
            rw [heqf]
            show (if msg.type = MessageType.chat then lobby.AddMessageToHistory msg
                  else lobby).WebSocketStarted = lobby.WebSocketStarted
            split <;> rfl

/-! ## The claims -/

/-- C1 (amended claim): along every reachable trace, serving one event obeys
startedOf after = startedOf before OR registerStarts: the WebSocketStarted
flag is monotone (never reset, regardless of later departures), and it turns
true exactly when a Register brings the connected-client count (len(Clients))
to config.MaxUsersPerLobby — not when the ever-joined member count
(len(Users)) reaches capacity. -/
theorem C1_started_step_equation (cfgMax : Nat) (tr : List Event) (e : Event)
    (lid : String) :
    startedOf (step cfgMax (run cfgMax initState tr) e) lid =
      (startedOf (run cfgMax initState tr) lid ||
        registerStarts cfgMax (run cfgMax initState tr) e lid) :=
  step_started cfgMax (run cfgMax initState tr) e lid (stInv_run cfgMax tr)

/-- C1 counterexample: with capacity 1, after the single login the ever-joined
member count equals the capacity, yet WebSocketStarted is still false — the
flag does not transition at the moment len(Users) first reaches capacity, as
the claim states; the code only sets it when len(Clients) reaches the
capacity during a register. -/
theorem C1_counterexample :
    (lobbyOf (run 1 initState [Event.login "a"]) "lobby-0").map Lobby.GetUserCount = some 1 ∧
    (lobbyOf (run 1 initState [Event.login "a"]) "lobby-0").map Lobby.MaxUsers = some 1 ∧
    (lobbyOf (run 1 initState [Event.login "a"]) "lobby-0").map Lobby.IsWebSocketStarted =
      some false := by
  decide

/-- C2: in every reachable state, every registered lobby has its attached
queue keys (Clients) a subset of its member keys (Users), and the number of
attached queues never exceeds the Session capacity. -/
theorem C2_clients_bounded (cfgMax : Nat) (tr : List Event) (p : String × Lobby)
    (hp : p ∈ (run cfgMax initState tr).lobbies) :
    (∀ k, k ∈ mapKeys p.2.Clients → k ∈ mapKeys p.2.Users) ∧
    p.2.GetConnectedClientCount ≤ p.2.MaxUsers := by
  obtain ⟨hsh, _⟩ := stInv_run cfgMax tr
  rcases hsh with hnil | ⟨lid, L, heq, hInv⟩
  · rw [hnil] at hp
    cases hp
  · rw [heq] at hp
    have hpe : p = (lid, L) := List.mem_singleton.mp hp
    subst hpe
    refine ⟨hInv.clientsSub, ?_⟩
    have hsp : (mapKeys ((lid, L).2.Clients)).Subperm (mapKeys ((lid, L).2.Users)) :=
      List.subperm_of_subset hInv.clientsNodup hInv.clientsSub
    have h1 : (mapKeys ((lid, L).2.Clients)).length ≤ (mapKeys ((lid, L).2.Users)).length :=
      hsp.length_le
    rw [length_mapKeys, length_mapKeys] at h1
    exact le_trans h1 hInv.usersLe

/-- The concrete lobby reached by a single login, used by witnesses. -/
def wLobby (maxUsers : Nat) : Lobby :=
  { ID := "lobby-0",
    Users := [("a", { Email := "a", LobbyID := "lobby-0", JoinedAt := 0,
                      IsActive := true, LastSeen := 0 })],
    Clients := [], MaxUsers := maxUsers, IsActive := false, CreatedAt := 0,
    WebSocketStarted := false, MessageHistory := [] }

/-- C2 witness: a concrete reachable state with one member and no attached
queue satisfies both bounds. -/
theorem C2_witness :
    (∀ k, k ∈ mapKeys (wLobby 2).Clients → k ∈ mapKeys (wLobby 2).Users) ∧
    (wLobby 2).GetConnectedClientCount ≤ (wLobby 2).MaxUsers :=
  C2_clients_bounded 2 [Event.login "a"] ("lobby-0", wLobby 2) (by decide)

/-- The chat message repeatedly broadcast in the C3 failing trace. -/
def chatHi : Message :=
  { type := .chat, username := "a", content := "hi", lobbyID := "lobby-0", timestamp := 0 }

/-- The C3 failing trace (capacity 1): login and connect member a, saturate
a's 256-slot queue with broadcasts while its outbound pump is stalled so that
the final broadcast evicts a (removing the queue and closing it), then serve
the Unregister that a's inbound pump submits when the connection dies.
handleUnregister closes the already-closed channel. -/
def crashTrace : List Event :=
  [Event.login "a", Event.connect "a" "lobby-0"]
    ++ List.replicate 256 (Event.broadcast "lobby-0" chatHi false)
    ++ [Event.unregister { Email := "a", LobbyID := "lobby-0", Send := 0, JoinedAt := 1 }]

set_option maxRecDepth 1000000 in
/-- C3 is violated by the code: replaying the crash trace panics the
coordinator goroutine (close of an already-closed Send channel in
handleUnregister after handleBroadcast evicted the same client), while the
state one event earlier is still healthy — a single request terminates the
loop. -/
theorem C3_coordinator_crash :
    (run 1 initState crashTrace).crashed = true ∧
    (run 1 initState (crashTrace.take 258)).crashed = false := by
  decide

/-- C4: in every reachable state, GetOrCreateLobby returns no session (the
Capacity condition) whenever some registered lobby has ever-joined member
count equal to its capacity — regardless of how many members are active,
since only len(Users) is consulted — and it creates a fresh lobby exactly
when the registry is empty, leaving the registry unchanged otherwise. -/
theorem C4_admission_policy (cfgMax : Nat) (tr : List Event) :
    (∀ lid L, lobbyOf (run cfgMax initState tr) lid = some L →
        L.GetUserCount = L.MaxUsers →
        (GetOrCreateLobby cfgMax (run cfgMax initState tr)).1 = none ∧
        (GetOrCreateLobby cfgMax (run cfgMax initState tr)).2 = run cfgMax initState tr) ∧
    ((run cfgMax initState tr).lobbies = [] →
        (GetOrCreateLobby cfgMax (run cfgMax initState tr)).1 =
          some ("lobby-" ++ toString (run cfgMax initState tr).now,
            NewLobby ("lobby-" ++ toString (run cfgMax initState tr).now) cfgMax
              (run cfgMax initState tr).now) ∧
        (GetOrCreateLobby cfgMax (run cfgMax initState tr)).2.lobbies =
          [("lobby-" ++ toString (run cfgMax initState tr).now,
            NewLobby ("lobby-" ++ toString (run cfgMax initState tr).now) cfgMax
              (run cfgMax initState tr).now)]) ∧
    ((run cfgMax initState tr).lobbies ≠ [] →
        (GetOrCreateLobby cfgMax (run cfgMax initState tr)).2 = run cfgMax initState tr) := by
  obtain ⟨hsh, _⟩ := stInv_run cfgMax tr
  refine ⟨?_, ?_, ?_⟩
  · intro lid L hg hful
    have hpair := stInv_getLobby cfgMax (run cfgMax initState tr) lid L
      ⟨hsh, fun cid hc => (stInv_run cfgMax tr).chansLt cid hc⟩ hg
    obtain ⟨heq, hInv⟩ := hpair
    have hacc : L.CanAcceptNewUsers = false := by
      cases hb : L.CanAcceptNewUsers
      · rfl
      · have := (canAccept_iff L).mp hb
        unfold Lobby.GetUserCount at hful
        omega
    have hf2 : (run cfgMax initState tr).lobbies.find?
        (fun q => q.2.CanAcceptNewUsers) = none := by
      rw [heq]
      simp [List.find?, hacc]
    have hany : (run cfgMax initState tr).lobbies.any (fun q => q.2.IsFull) = true := by
      rw [heq]
      simp [isFull_of_not_canAccept L hacc]
    have := getOrCreate_eq_blocked cfgMax (run cfgMax initState tr) hf2 hany
    rw [this]
    exact ⟨rfl, rfl⟩
  · intro hnil
    have hf2 : (run cfgMax initState tr).lobbies.find?
        (fun q => q.2.CanAcceptNewUsers) = none := by
      rw [hnil]
      rfl
    have hany : (run cfgMax initState tr).lobbies.any (fun q => q.2.IsFull) = false := by
      rw [hnil]
      rfl
    have := getOrCreate_eq_create cfgMax (run cfgMax initState tr) hf2 hany
    rw [this]
    refine ⟨rfl, ?_⟩
    show mapSet (run cfgMax initState tr).lobbies _ _ = _
    rw [hnil]
    rfl
  · intro hne
    rcases hsh with hnil | ⟨lid0, L0, heq, hInv⟩
    · exact absurd hnil hne
    · by_cases hacc : L0.CanAcceptNewUsers = true
      · have hf2 : (run cfgMax initState tr).lobbies.find?
            (fun q => q.2.CanAcceptNewUsers) = some (lid0, L0) := by
          rw [heq]
          simp [List.find?, hacc]
        rw [getOrCreate_eq_found cfgMax (run cfgMax initState tr) _ hf2]
      · have hacc2 : L0.CanAcceptNewUsers = false := by
          cases hb : L0.CanAcceptNewUsers
          · rfl
          · exact absurd hb hacc
        have hf2 : (run cfgMax initState tr).lobbies.find?
            (fun q => q.2.CanAcceptNewUsers) = none := by
          rw [heq]
          simp [List.find?, hacc2]
        have hany : (run cfgMax initState tr).lobbies.any (fun q => q.2.IsFull) = true := by
          rw [heq]
          simp [isFull_of_not_canAccept L0 hacc2]
        rw [getOrCreate_eq_blocked cfgMax (run cfgMax initState tr) hf2 hany]

/-- C4 witness: with capacity 1, after one login the only lobby is at
ever-joined capacity and GetOrCreateLobby yields no session. -/
theorem C4_witness :
    (GetOrCreateLobby 1 (run 1 initState [Event.login "a"])).1 = none :=
  ((C4_admission_policy 1 [Event.login "a"]).1 "lobby-0" (wLobby 1)
    (by decide) (by decide)).1

/-- C7: no event ever deletes a member row from Users — an Unregister only
flips the active flag — so along every reachable trace the set of ever-joined
member keys only grows and the ever-joined member count (len(Users)) is
monotonically non-decreasing. -/
theorem C7_member_rows_never_deleted (cfgMax : Nat) (tr : List Event) (e : Event)
    (lid : String) :
    mapKeys (usersOf (run cfgMax initState tr) lid) ⊆
      mapKeys (usersOf (step cfgMax (run cfgMax initState tr) e) lid) ∧
    (usersOf (run cfgMax initState tr) lid).length ≤
      (usersOf (step cfgMax (run cfgMax initState tr) e) lid).length :=
  step_users_mono cfgMax (run cfgMax initState tr) e lid (stInv_run cfgMax tr)

/-- C5 counterexample: on the reachable capacity-1 lobby that already holds
member a, Lobby.AddUser called with the new identity b does not fail with
Full — it inserts b and the member count exceeds the capacity.  The Full
rejection lives in the caller (AuthHandler.Login), not in AddUser. -/
theorem C5_counterexample :
    (lobbyOf (run 1 initState [Event.login "a"]) "lobby-0").map
      (fun l => ((l.AddUser "b" 5).1.GetUserCount, l.MaxUsers, l.IsUserInLobby "b")) =
    some (2, 1, false) := by
  decide

/-- C5 (amended claim): Lobby.AddUser is idempotent — for an existing member
it sets active, refreshes lastSeen and returns the updated row without
changing the member count — and for a new identity it unconditionally inserts
an active MemberState, even at capacity; the Full rejection for a session at
capacity is enforced before AddUser is reached, by the login path, which
answers with the no-session condition and leaves the state unchanged. -/
theorem C5_addUser_amended (cfgMax : Nat) (l : Lobby) (email : String) (now : Nat)
    (st : ServerState) (email2 : String) :
    (∀ u, mapGet l.Users email = some u →
        l.AddUser email now =
          ({ l with Users := (mapSet l.Users email
              { u with IsActive := true, LastSeen := now }) },
           { u with IsActive := true, LastSeen := now }) ∧
        (l.AddUser email now).1.GetUserCount = l.GetUserCount) ∧
    (mapGet l.Users email = none →
        (l.AddUser email now).1.Users = (mapSet l.Users email
          { Email := email, LobbyID := l.ID, JoinedAt := now,
            IsActive := true, LastSeen := now }) ∧
        (l.AddUser email now).1.GetUserCount = l.GetUserCount + 1) ∧
    (FindLobbyByUserEmail st email2 = none →
        st.lobbies ≠ [] →
        (∀ p, p ∈ st.lobbies → p.2.CanAcceptNewUsers = false) →
        login cfgMax st email2 = (st, .sessionInProgress)) := by
  refine ⟨?_, ?_, ?_⟩
  · intro u hu
    refine ⟨addUser_eq_existing l email now u hu, ?_⟩
    rw [addUser_eq_existing l email now u hu]
    show (mapSet l.Users email _).length = l.Users.length
    exact length_mapSet_mem _ _ _ (mem_mapKeys_of_mapGet_some _ _ _ hu)
  · intro hnone
    refine ⟨by rw [addUser_eq_new l email now hnone], ?_⟩
    rw [addUser_eq_new l email now hnone]
    show (mapSet l.Users email _).length = l.Users.length + 1
    exact length_mapSet_notMem _ _ _ ((mapGet_eq_none_iff _ _).mp hnone)
  · intro hF hne hall
    have hf2 : st.lobbies.find? (fun q => q.2.CanAcceptNewUsers) = none := by
      rw [List.find?_eq_none]
      intro p hp
      rw [hall p hp]
      exact fun hc => nomatch hc
    have hany : st.lobbies.any (fun q => q.2.IsFull) = true := by
      rw [List.any_eq_true]
      cases hl : st.lobbies with
      | nil => exact absurd hl hne
      | cons p rest =>
          have hmem : p ∈ st.lobbies := by
            rw [hl]
            exact List.mem_cons_self p rest
          exact ⟨p, List.mem_cons_self p rest, isFull_of_not_canAccept p.2 (hall p hmem)⟩
    exact login_eq_blocked cfgMax st st email2 hF (getOrCreate_eq_blocked cfgMax st hf2 hany)

/-- C5 witness: on the reachable capacity-1 lobby holding a, the idempotent
branch for a keeps the count, the insert branch for b grows it past the
capacity, and the login path rejects c without touching the state. -/
theorem C5_witness :
    ((wLobby 1).AddUser "a" 5).1.GetUserCount = (wLobby 1).GetUserCount ∧
    ((wLobby 1).AddUser "b" 5).1.GetUserCount = (wLobby 1).GetUserCount + 1 ∧
    login 1 (run 1 initState [Event.login "a"]) "c" =
      (run 1 initState [Event.login "a"], LoginOutcome.sessionInProgress) := by
  have h := C5_addUser_amended 1 (wLobby 1) "a" 5 (run 1 initState [Event.login "a"]) "c"
  have h2 := C5_addUser_amended 1 (wLobby 1) "b" 5 (run 1 initState [Event.login "a"]) "c"
  refine ⟨?_, ?_, ?_⟩
  · exact (h.1 { Email := "a", LobbyID := "lobby-0", JoinedAt := 0, IsActive := true, LastSeen := 0 } (by decide)).2
  · exact (h2.2.1 (by decide)).2
  · exact h.2.2 (by decide) (by decide) (by decide)

/-- Full description of the fan-out loop when every channel in the snapshot
is live (as in every reachable state), the channels are pairwise distinct and
the snapshot keys are duplicate-free: no panic occurs, channels outside the
snapshot and clients outside the snapshot are untouched, every client whose
buffer has room receives the message and stays attached, and every client
with a saturated buffer is evicted — its entry removed and its channel
closed. -/
theorem fanOut_spec (msg : Message) :
    ∀ (cls : List (String × Client)) (lobby : Lobby) (chans : List (Nat × Chan)),
    (∀ p ∈ cls, ∃ ch, mapGet chans p.2.Send = some ch ∧ ch.closed = false) →
    ((cls.map (fun p => p.2.Send)).Nodup) →
    ((mapKeys cls).Nodup) →
    (fanOut msg cls lobby chans).2.2 = false ∧
    (∀ cid, cid ∉ cls.map (fun p => p.2.Send) →
        mapGet (fanOut msg cls lobby chans).2.1 cid = mapGet chans cid) ∧
    (∀ k, k ∉ mapKeys cls →
        (k ∈ mapKeys (fanOut msg cls lobby chans).1.Clients ↔ k ∈ mapKeys lobby.Clients)) ∧
    (∀ p ∈ cls, ∀ ch, mapGet chans p.2.Send = some ch →
        (ch.buf.length < ch.cap →
            mapGet (fanOut msg cls lobby chans).2.1 p.2.Send =
              some { ch with buf := ch.buf ++ [msg] } ∧
            (p.1 ∈ mapKeys lobby.Clients →
              p.1 ∈ mapKeys (fanOut msg cls lobby chans).1.Clients)) ∧
        (¬ ch.buf.length < ch.cap →
            mapGet (fanOut msg cls lobby chans).2.1 p.2.Send =
              some { ch with closed := true } ∧
            p.1 ∉ mapKeys (fanOut msg cls lobby chans).1.Clients)) := by
  intro cls
  induction cls with
  | nil =>
      intro lobby chans hopen hnodS hnodK
      exact ⟨rfl, fun cid hc => rfl, fun k hk => Iff.rfl,
        fun p hp => absurd hp (List.not_mem_nil p)⟩
  | cons q rest ih =>
      intro lobby chans hopen hnodS hnodK
      obtain ⟨chq, hgq, hclq⟩ := hopen q (List.mem_cons_self q rest)
      have hSq : q.2.Send ∉ rest.map (fun p => p.2.Send) := (List.nodup_cons.mp hnodS).1
      have hnodS2 : (rest.map (fun p => p.2.Send)).Nodup := (List.nodup_cons.mp hnodS).2
      have hKq : q.1 ∉ mapKeys rest := (List.nodup_cons.mp (by simpa using hnodK)).1
      have hnodK2 : (mapKeys rest).Nodup := (List.nodup_cons.mp (by simpa using hnodK)).2
      have hsend_ne : ∀ p ∈ rest, q.2.Send ≠ p.2.Send := by
        intro p hp hcontra
        exact hSq (hcontra ▸ List.mem_map_of_mem (fun p => p.2.Send) hp)
      have hkey_ne : ∀ p ∈ rest, p.1 ≠ q.1 := by
        intro p hp hcontra
        exact hKq (hcontra ▸ List.mem_map_of_mem Prod.fst hp)
      by_cases hroom : chq.buf.length < chq.cap
      · -- q is delivered
        have hcond : ¬ (chq.closed = true ∨ chq.buf.length ≥ chq.cap) := by
          rintro (hc | hc)
          · rw [hclq] at hc
            cases hc
          · exact absurd hroom (not_lt.mpr hc)
        have htry : chanTrySend chans q.2.Send msg =
            some (mapSet chans q.2.Send { chq with buf := chq.buf ++ [msg] }) := by
          unfold chanTrySend
          rw [hgq]
          show (if chq.closed = true ∨ chq.buf.length ≥ chq.cap then none
                else some (mapSet chans q.2.Send { chq with buf := chq.buf ++ [msg] })) =
            some (mapSet chans q.2.Send { chq with buf := chq.buf ++ [msg] })
          rw [if_neg hcond]
        have heq : fanOut msg (q :: rest) lobby chans =
            fanOut msg rest lobby (mapSet chans q.2.Send { chq with buf := chq.buf ++ [msg] }) := by
          simp [fanOut, htry]
        have hopen2 : ∀ p ∈ rest, ∃ ch,
            mapGet (mapSet chans q.2.Send { chq with buf := chq.buf ++ [msg] }) p.2.Send = some ch ∧
            ch.closed = false := by
          intro p hp
          obtain ⟨ch, hg, hcl⟩ := hopen p (List.mem_cons_of_mem q hp)
          exact ⟨ch, by rw [mapGet_mapSet_ne _ _ _ _ (hsend_ne p hp)]; exact hg, hcl⟩
        obtain ⟨hpan, hframeC, hframeK, hpoint⟩ := ih lobby
          (mapSet chans q.2.Send { chq with buf := chq.buf ++ [msg] }) hopen2 hnodS2 hnodK2
        rw [heq]
        refine ⟨hpan, ?_, ?_, ?_⟩
        · intro cid hc
          have hc2 : cid ∉ rest.map (fun p => p.2.Send) := by
            intro hm
            exact hc (List.mem_cons_of_mem _ hm)
          have hcq : cid ≠ q.2.Send := by
            intro hcontra
            exact hc (hcontra ▸ List.mem_cons_self _ _)
          rw [hframeC cid hc2, mapGet_mapSet_ne _ _ _ _ (Ne.symm hcq)]
        · intro k hk
          have hk2 : k ∉ mapKeys rest := by
            intro hm
            exact hk (by simpa using List.mem_cons_of_mem q.1 (by simpa using hm))
          exact hframeK k hk2
        · intro p hp ch hgch
          rcases List.mem_cons.mp hp with hpq | hpr
          · subst hpq
            have hch : ch = chq := by
              rw [hgq] at hgch
              exact (Option.some_inj.mp hgch).symm
            subst hch
            constructor
            · intro hr
              constructor
              · rw [hframeC p.2.Send hSq, mapGet_mapSet_self]
              · intro hmem
                exact (hframeK p.1 hKq).mpr hmem
            · intro hnr
              exact absurd hroom hnr
          · have hg2 : mapGet (mapSet chans q.2.Send { chq with buf := chq.buf ++ [msg] })
                p.2.Send = some ch := by
              rw [mapGet_mapSet_ne _ _ _ _ (hsend_ne p hpr)]
              exact hgch
            exact hpoint p hpr ch hg2
      · -- q's queue is saturated: eviction
        have htry : chanTrySend chans q.2.Send msg = none := by
          unfold chanTrySend
          rw [hgq]
          show (if chq.closed = true ∨ chq.buf.length ≥ chq.cap then none
                else some (mapSet chans q.2.Send { chq with buf := chq.buf ++ [msg] })) = none
          rw [if_pos (Or.inr (not_lt.mp hroom))]
        have hclose : chanClose chans q.2.Send =
            (mapSet chans q.2.Send { chq with closed := true }, false) := by
          unfold chanClose
          rw [hgq]
          show (if chq.closed = true then (chans, true)
                else (mapSet chans q.2.Send { chq with closed := true }, false)) =
            (mapSet chans q.2.Send { chq with closed := true }, false)
          rw [if_neg]
          rw [hclq]
          exact fun hc => nomatch hc
        have heq : fanOut msg (q :: rest) lobby chans =
            fanOut msg rest (lobby.RemoveClient q.1)
              (mapSet chans q.2.Send { chq with closed := true }) := by
          simp [fanOut, htry, hclose]
        have hopen2 : ∀ p ∈ rest, ∃ ch,
            mapGet (mapSet chans q.2.Send { chq with closed := true }) p.2.Send = some ch ∧
            ch.closed = false := by
          intro p hp
          obtain ⟨ch, hg, hcl⟩ := hopen p (List.mem_cons_of_mem q hp)
          exact ⟨ch, by rw [mapGet_mapSet_ne _ _ _ _ (hsend_ne p hp)]; exact hg, hcl⟩
        obtain ⟨hpan, hframeC, hframeK, hpoint⟩ := ih (lobby.RemoveClient q.1)
          (mapSet chans q.2.Send { chq with closed := true }) hopen2 hnodS2 hnodK2
        rw [heq]
        have hErased : ∀ k, k ≠ q.1 →
            (k ∈ mapKeys (lobby.RemoveClient q.1).Clients ↔ k ∈ mapKeys lobby.Clients) := by
          intro k hkq
          constructor
          · intro hm
            exact (mapKeys_mapErase_sublist _ _).subset hm
          · intro hm
            exact mem_mapKeys_mapErase_of_ne _ _ _ hkq hm
        refine ⟨hpan, ?_, ?_, ?_⟩
        · intro cid hc
          have hc2 : cid ∉ rest.map (fun p => p.2.Send) := by
            intro hm
            exact hc (List.mem_cons_of_mem _ hm)
          have hcq : cid ≠ q.2.Send := by
            intro hcontra
            exact hc (hcontra ▸ List.mem_cons_self _ _)
          rw [hframeC cid hc2, mapGet_mapSet_ne _ _ _ _ (Ne.symm hcq)]
        · intro k hk
          have hk2 : k ∉ mapKeys rest := by
            intro hm
            exact hk (by simpa using List.mem_cons_of_mem q.1 (by simpa using hm))
          have hkq : k ≠ q.1 := by
            intro hcontra
            exact hk (by simp [hcontra])
          exact (hframeK k hk2).trans (hErased k hkq)
        · intro p hp ch hgch
          rcases List.mem_cons.mp hp with hpq | hpr
          · subst hpq
            have hch : ch = chq := by
              rw [hgq] at hgch
              exact (Option.some_inj.mp hgch).symm
            subst hch
            constructor
            · intro hr
              exact absurd hr hroom
            · intro hnr
              constructor
              · rw [hframeC p.2.Send hSq, mapGet_mapSet_self]
              · intro hmem
                obtain ⟨cl2, heqf, hsubf⟩ := fanOut_toLobby msg rest (lobby.RemoveClient p.1)
                  (mapSet chans p.2.Send { ch with closed := true })
                rw [heqf] at hmem
                have hm2 : p.1 ∈ mapKeys (lobby.RemoveClient p.1).Clients := by
                  have := (hsubf.map Prod.fst).subset
                  exact this hmem
                exact notMem_mapKeys_mapErase _ _ hm2
          · have hg2 : mapGet (mapSet chans q.2.Send { chq with closed := true })
                p.2.Send = some ch := by
              rw [mapGet_mapSet_ne _ _ _ _ (hsend_ne p hpr)]
              exact hgch
            have hpt := hpoint p hpr ch hg2
            constructor
            · intro hr
              refine ⟨(hpt.1 hr).1, ?_⟩
              intro hmem
              exact (hpt.1 hr).2 ((hErased p.1 (hkey_ne p hpr)).mpr hmem)
            · intro hnr
              exact hpt.2 hnr

theorem clientsOf_set_general (st st2 : ServerState) (key : String) (lobby2 : Lobby)
    (h2 : st2.lobbies = mapSet st.lobbies key lobby2) (lid : String) :
    clientsOf st2 lid = (if key = lid then lobby2.Clients else clientsOf st lid) := by
  unfold clientsOf lobbyOf
  rw [h2]
  by_cases hk : key = lid
  · subst hk
    rw [mapGet_mapSet_self]
    simp
  · rw [mapGet_mapSet_ne _ _ _ _ hk, if_neg hk]

theorem historyOf_set_general (st st2 : ServerState) (key : String) (lobby2 : Lobby)
    (h2 : st2.lobbies = mapSet st.lobbies key lobby2) (lid : String) :
    historyOf st2 lid = (if key = lid then lobby2.MessageHistory else historyOf st lid) := by
  unfold historyOf lobbyOf
  rw [h2]
  by_cases hk : key = lid
  · subst hk
    rw [mapGet_mapSet_self]
    simp
  · rw [mapGet_mapSet_ne _ _ _ _ hk, if_neg hk]

theorem historyOf_of_get (st : ServerState) (lid : String) (lobby : Lobby)
    (hg : mapGet st.lobbies lid = some lobby) :
    historyOf st lid = lobby.MessageHistory := by
  unfold historyOf lobbyOf
  rw [hg]

/-- C6: serving a Broadcast on a session whose member x has a saturated Send
queue does not crash the coordinator; x's queue entry is removed from the
session and the channel closed; every member whose buffer has room receives
the message and stays attached; a chat message is appended to the history and
a persistence failure (redisFails) changes nothing about the result; and the
result no longer references x.  The hypotheses — all queue channels in the
Clients map are live and pairwise distinct, keys duplicate-free — hold in
every reachable state, where the coordinator closes a channel only when it
removes its map entry in the same serialized request. -/
theorem C6_broadcast_eviction (st : ServerState) (lid : String) (msg : Message)
    (x : String) (cx : Client) (L : Lobby) (chx : Chan)
    (hcr : st.crashed = false)
    (hL : GetLobby st lid = some L)
    (hnodK : (mapKeys L.Clients).Nodup)
    (hnodS : (L.Clients.map (fun p => p.2.Send)).Nodup)
    (hopen : ∀ p ∈ L.Clients, ∃ ch, mapGet st.chans p.2.Send = some ch ∧ ch.closed = false)
    (hx : (x, cx) ∈ L.Clients)
    (hchx : mapGet st.chans cx.Send = some chx)
    (hfull : ¬ chx.buf.length < chx.cap) :
    ∀ rf : Bool,
      (handleBroadcast st lid msg rf).crashed = false ∧
      x ∉ mapKeys (clientsOf (handleBroadcast st lid msg rf) lid) ∧
      mapGet (handleBroadcast st lid msg rf).chans cx.Send =
        some { chx with closed := true } ∧
      (∀ p ∈ L.Clients, ∀ ch, mapGet st.chans p.2.Send = some ch →
          ch.buf.length < ch.cap →
          mapGet (handleBroadcast st lid msg rf).chans p.2.Send =
            some { ch with buf := ch.buf ++ [msg] } ∧
          p.1 ∈ mapKeys (clientsOf (handleBroadcast st lid msg rf) lid)) ∧
      historyOf (handleBroadcast st lid msg rf) lid =
        (if msg.type = MessageType.chat then historyOf st lid ++ [msg]
         else historyOf st lid) ∧
      handleBroadcast st lid msg true = handleBroadcast st lid msg false := by
  intro rf
  have hg2 : mapGet st.lobbies lid = some L := hL
  have hclients : (if msg.type = MessageType.chat then L.AddMessageToHistory msg
      else L).GetAllClients = L.Clients := by
    split <;> rfl
  have hclients2 : (if msg.type = MessageType.chat then L.AddMessageToHistory msg
      else L).Clients = L.Clients := by
    split <;> rfl
  have hfin : handleBroadcast st lid msg rf =
      { st with
        lobbies := mapSet st.lobbies lid
          (fanOut msg
            (if msg.type = MessageType.chat then L.AddMessageToHistory msg
             else L).GetAllClients
            (if msg.type = MessageType.chat then L.AddMessageToHistory msg else L)
            st.chans).1,
        chans := (fanOut msg
            (if msg.type = MessageType.chat then L.AddMessageToHistory msg
             else L).GetAllClients
            (if msg.type = MessageType.chat then L.AddMessageToHistory msg else L)
            st.chans).2.1,
        crashed := st.crashed || (fanOut msg
            (if msg.type = MessageType.chat then L.AddMessageToHistory msg
             else L).GetAllClients
            (if msg.type = MessageType.chat then L.AddMessageToHistory msg else L)
            st.chans).2.2 } := by
    rw [handleBroadcast_eq_found st lid msg rf L hL]
  obtain ⟨hpan, hframeC, hframeK, hpoint⟩ := fanOut_spec msg
    ((if msg.type = MessageType.chat then L.AddMessageToHistory msg else L).GetAllClients)
    (if msg.type = MessageType.chat then L.AddMessageToHistory msg else L)
    st.chans
    (by rw [hclients]; exact hopen)
    (by rw [hclients]; exact hnodS)
    (by rw [hclients]; exact hnodK)
  have hxm : (x, cx) ∈ (if msg.type = MessageType.chat then L.AddMessageToHistory msg
      else L).GetAllClients := by
    rw [hclients]
    exact hx
  have hclOf : clientsOf (handleBroadcast st lid msg rf) lid =
      (fanOut msg
        (if msg.type = MessageType.chat then L.AddMessageToHistory msg
         else L).GetAllClients
        (if msg.type = MessageType.chat then L.AddMessageToHistory msg else L)
        st.chans).1.Clients := by
    rw [hfin]
    rw [clientsOf_set_general st _ lid _ rfl lid]
    rw [if_pos rfl]
  refine ⟨?_, ?_, ?_, ?_, ?_, rfl⟩
  · rw [hfin]
    show (st.crashed || (fanOut msg
        (if msg.type = MessageType.chat then L.AddMessageToHistory msg else L).GetAllClients
        (if msg.type = MessageType.chat then L.AddMessageToHistory msg else L)
        st.chans).2.2) = false
    rw [hcr, hpan]
    rfl
  · rw [hclOf]
    exact ((hpoint (x, cx) hxm chx hchx).2 hfull).2
  · rw [hfin]
    show mapGet (fanOut msg _ _ st.chans).2.1 cx.Send = _
    exact ((hpoint (x, cx) hxm chx hchx).2 hfull).1
  · intro p hp ch hgch hr
    have hpm : p ∈ (if msg.type = MessageType.chat then L.AddMessageToHistory msg
        else L).GetAllClients := by
      rw [hclients]
      exact hp
    have hkeymem : p.1 ∈ mapKeys (if msg.type = MessageType.chat then L.AddMessageToHistory msg
        else L).Clients := by
      rw [hclients2]
      exact List.mem_map_of_mem Prod.fst hp
    refine ⟨?_, ?_⟩
    · rw [hfin]
      show mapGet (fanOut msg _ _ st.chans).2.1 p.2.Send = _
      exact ((hpoint p hpm ch hgch).1 hr).1
    · rw [hclOf]
      exact ((hpoint p hpm ch hgch).1 hr).2 hkeymem
  · rw [hfin]
    rw [historyOf_set_general st _ lid _ rfl lid]
    rw [if_pos rfl]
    obtain ⟨cl2, heqf, hsubf⟩ := fanOut_toLobby msg
      ((if msg.type = MessageType.chat then L.AddMessageToHistory msg else L).GetAllClients)
      (if msg.type = MessageType.chat then L.AddMessageToHistory msg else L)
      st.chans
    rw [heqf]
    show (if msg.type = MessageType.chat then L.AddMessageToHistory msg
          else L).MessageHistory =
      (if msg.type = MessageType.chat then historyOf st lid ++ [msg] else historyOf st lid)
    rw [historyOf_of_get st lid L hg2]
    split <;> rfl

/-- C6 witness: a two-member session where x's channel has capacity 0 (full)
and y's has room: the broadcast does not crash and x is evicted. -/
theorem C6_witness :
    (handleBroadcast
      { lobbies := [("lobby-0",
          { ID := "lobby-0",
            Users := [("x", { Email := "x", LobbyID := "lobby-0", JoinedAt := 0,
                              IsActive := true, LastSeen := 0 }),
                      ("y", { Email := "y", LobbyID := "lobby-0", JoinedAt := 0,
                              IsActive := true, LastSeen := 0 })],
            Clients := [("x", { Email := "x", LobbyID := "lobby-0", Send := 0, JoinedAt := 0 }),
                        ("y", { Email := "y", LobbyID := "lobby-0", Send := 1, JoinedAt := 0 })],
            MaxUsers := 2, IsActive := true, CreatedAt := 0,
            WebSocketStarted := true, MessageHistory := [] })],
        chans := [(0, { buf := [], cap := 0, closed := false }),
                  (1, { buf := [], cap := 5, closed := false })],
        nextChan := 2, now := 7, crashed := false }
      "lobby-0" chatHi false).crashed = false ∧
    "x" ∉ mapKeys (clientsOf (handleBroadcast
      { lobbies := [("lobby-0",
          { ID := "lobby-0",
            Users := [("x", { Email := "x", LobbyID := "lobby-0", JoinedAt := 0,
                              IsActive := true, LastSeen := 0 }),
                      ("y", { Email := "y", LobbyID := "lobby-0", JoinedAt := 0,
                              IsActive := true, LastSeen := 0 })],
            Clients := [("x", { Email := "x", LobbyID := "lobby-0", Send := 0, JoinedAt := 0 }),
                        ("y", { Email := "y", LobbyID := "lobby-0", Send := 1, JoinedAt := 0 })],
            MaxUsers := 2, IsActive := true, CreatedAt := 0,
            WebSocketStarted := true, MessageHistory := [] })],
        chans := [(0, { buf := [], cap := 0, closed := false }),
                  (1, { buf := [], cap := 5, closed := false })],
        nextChan := 2, now := 7, crashed := false }
      "lobby-0" chatHi false) "lobby-0") := by
  have h := C6_broadcast_eviction
    { lobbies := [("lobby-0",
        { ID := "lobby-0",
          Users := [("x", { Email := "x", LobbyID := "lobby-0", JoinedAt := 0,
                            IsActive := true, LastSeen := 0 }),
                    ("y", { Email := "y", LobbyID := "lobby-0", JoinedAt := 0,
                            IsActive := true, LastSeen := 0 })],
          Clients := [("x", { Email := "x", LobbyID := "lobby-0", Send := 0, JoinedAt := 0 }),
                      ("y", { Email := "y", LobbyID := "lobby-0", Send := 1, JoinedAt := 0 })],
          MaxUsers := 2, IsActive := true, CreatedAt := 0,
          WebSocketStarted := true, MessageHistory := [] })],
      chans := [(0, { buf := [], cap := 0, closed := false }),
                (1, { buf := [], cap := 5, closed := false })],
      nextChan := 2, now := 7, crashed := false }
    "lobby-0" chatHi "x" { Email := "x", LobbyID := "lobby-0", Send := 0, JoinedAt := 0 }
    { ID := "lobby-0",
      Users := [("x", { Email := "x", LobbyID := "lobby-0", JoinedAt := 0,
                        IsActive := true, LastSeen := 0 }),
                ("y", { Email := "y", LobbyID := "lobby-0", JoinedAt := 0,
                        IsActive := true, LastSeen := 0 })],
      Clients := [("x", { Email := "x", LobbyID := "lobby-0", Send := 0, JoinedAt := 0 }),
                  ("y", { Email := "y", LobbyID := "lobby-0", Send := 1, JoinedAt := 0 })],
      MaxUsers := 2, IsActive := true, CreatedAt := 0,
      WebSocketStarted := true, MessageHistory := [] }
    { buf := [], cap := 0, closed := false }
    rfl rfl (by decide) (by decide)
    (by
      intro p hp
      rcases (by simpa using hp :
          p = ("x", ({ Email := "x", LobbyID := "lobby-0", Send := 0, JoinedAt := 0 } : Client)) ∨
          p = ("y", ({ Email := "y", LobbyID := "lobby-0", Send := 1, JoinedAt := 0 } : Client)))
        with rfl | rfl
      · exact ⟨{ buf := [], cap := 0, closed := false }, rfl, rfl⟩
      · exact ⟨{ buf := [], cap := 5, closed := false }, rfl, rfl⟩)
    (by decide) rfl (by decide)
  exact ⟨(h false).1, (h false).2.1⟩

theorem handleRegister_nextChan (cfgMax : Nat) (st : ServerState) (c : Client) :
    (handleRegister cfgMax st c).nextChan = st.nextChan := by
  cases hg : GetLobby st c.LobbyID with
  | none => rw [handleRegister_eq_noLobby cfgMax st c hg]
  | some lobby =>
      rw [handleRegister_eq_found cfgMax st c lobby hg]
      cases sendAll st.chans c.Send
          (welcomeMessage cfgMax (lobby.AddClient c.Email c) c.Email c.LobbyID st.now ::
            (lobby.AddClient c.Email c).GetMessageHistory) with
      | mk chans1 pan =>
          cases pan <;> rfl

/-- C8: a validated register enqueues, onto the freshly attached Send queue,
first the Welcome system action and then the full history snapshot in its
original append order: the buffer is exactly welcome :: history, with no gaps
and no duplicates.  Moreover the history log is append-only, so the snapshot
value handed out is never altered by later appends. -/
theorem C8_register_replay (cfgMax : Nat) (st : ServerState) (email lid : String)
    (L : Lobby)
    (hcr : st.crashed = false)
    (hchk : handleWebSocketCheck st email lid = none)
    (hgl : GetLobby st lid = some L) :
    mapGet (step cfgMax st (.connect email lid)).chans st.nextChan =
      some { buf := welcomeMessage cfgMax
               (L.AddClient email
                 { Email := email, LobbyID := lid, Send := st.nextChan, JoinedAt := st.now })
               email lid st.now :: L.GetMessageHistory,
             cap := 256, closed := false } ∧
    (∀ (l2 : Lobby) (m : Message),
        (l2.AddMessageToHistory m).GetMessageHistory = l2.GetMessageHistory ++ [m]) := by
  constructor
  · unfold step
    rw [if_neg (by rw [hcr]; exact fun hc => nomatch hc)]
    have hred : (({ stepCore cfgMax st (.connect email lid) with
        now := (stepCore cfgMax st (.connect email lid)).now + 1 } : ServerState)).chans =
        (stepCore cfgMax st (.connect email lid)).chans := rfl
    rw [hred, stepCore_connect_ok cfgMax st email lid hchk]
    have hg2 : GetLobby
        { st with
          chans := mapSet st.chans st.nextChan { buf := [], cap := 256, closed := false },
          nextChan := st.nextChan + 1 }
        ({ Email := email, LobbyID := lid, Send := st.nextChan,
           JoinedAt := st.now } : Client).LobbyID = some L := hgl
    have hget : mapGet
        (mapSet st.chans st.nextChan { buf := [], cap := 256, closed := false })
        st.nextChan = some { buf := [], cap := 256, closed := false } :=
      mapGet_mapSet_self _ _ _
    have hsend := sendAll_open st.nextChan
      (welcomeMessage cfgMax
          (L.AddClient email
            { Email := email, LobbyID := lid, Send := st.nextChan, JoinedAt := st.now })
          email lid st.now ::
        (L.AddClient email
            { Email := email, LobbyID := lid, Send := st.nextChan,
              JoinedAt := st.now }).GetMessageHistory)
      (mapSet st.chans st.nextChan { buf := [], cap := 256, closed := false })
      { buf := [], cap := 256, closed := false } hget rfl
    rw [handleRegister_eq_found cfgMax _ _ L hg2, hsend]
    show mapGet (mapSet
        (mapSet st.chans st.nextChan { buf := [], cap := 256, closed := false })
        st.nextChan _) st.nextChan = _
    rw [mapSet_mapSet, mapGet_mapSet_self]
    rfl
  · intro l2 m
    rfl

/-- C8 witness: after one login with capacity 2, connecting a enqueues the
welcome message and the (empty) history snapshot onto the fresh channel. -/
theorem C8_witness :
    mapGet (step 2 (run 2 initState [Event.login "a"])
        (.connect "a" "lobby-0")).chans (run 2 initState [Event.login "a"]).nextChan =
      some { buf := welcomeMessage 2
               ((wLobby 2).AddClient "a"
                 { Email := "a", LobbyID := "lobby-0",
                   Send := (run 2 initState [Event.login "a"]).nextChan,
                   JoinedAt := (run 2 initState [Event.login "a"]).now })
               "a" "lobby-0" (run 2 initState [Event.login "a"]).now :: (wLobby 2).GetMessageHistory,
             cap := 256, closed := false } ∧
    (∀ (l2 : Lobby) (m : Message),
        (l2.AddMessageToHistory m).GetMessageHistory = l2.GetMessageHistory ++ [m]) :=
  C8_register_replay 2 (run 2 initState [Event.login "a"]) "a" "lobby-0" (wLobby 2)
    (by decide) (by decide) (by decide)

/-- C9: a websocket connection attempt is rejected — leaving registry,
channel heap and allocation counter untouched, so no Client is created and no
Register request is submitted — exactly when the email or lobby_id parameter
is missing, the named session does not exist, or the identity is not an
already-admitted member of that session; when validation passes a fresh Send
channel is allocated. -/
theorem C9_connection_validation (cfgMax : Nat) (st : ServerState) (email lid : String) :
    (handleWebSocketCheck st email lid ≠ none ↔
      (email = "" ∨ lid = "" ∨ GetLobby st lid = none ∨
       ∃ L, GetLobby st lid = some L ∧ L.IsUserInLobby email = false)) ∧
    (handleWebSocketCheck st email lid ≠ none →
      (step cfgMax st (.connect email lid)).lobbies = st.lobbies ∧
      (step cfgMax st (.connect email lid)).chans = st.chans ∧
      (step cfgMax st (.connect email lid)).nextChan = st.nextChan) ∧
    (handleWebSocketCheck st email lid = none → st.crashed = false →
      (step cfgMax st (.connect email lid)).nextChan = st.nextChan + 1) := by
  refine ⟨?_, ?_, ?_⟩
  · unfold handleWebSocketCheck
    by_cases hmp : email = "" ∨ lid = ""
    · rw [if_pos hmp]
      constructor
      · intro _
        rcases hmp with h1 | h1
        · exact Or.inl h1
        · exact Or.inr (Or.inl h1)
      · intro _ hc
        cases hc
    · rw [if_neg hmp]
      push_neg at hmp
      cases hgl : GetLobby st lid with
      | none =>
          constructor
          · intro _
            exact Or.inr (Or.inr (Or.inl rfl))
          · intro _ hc
            cases hc
      | some L =>
          show (if L.IsUserInLobby email = true then (none : Option RejectReason)
              else some RejectReason.notAuthorized) ≠ none ↔
            (email = "" ∨ lid = "" ∨ (some L : Option Lobby) = none ∨
             ∃ L2, (some L : Option Lobby) = some L2 ∧ L2.IsUserInLobby email = false)
          by_cases hu : L.IsUserInLobby email = true
          · rw [if_pos hu]
            constructor
            · intro hc
              exact absurd rfl hc
            · rintro (h1 | h1 | h1 | ⟨L2, hL2, hfalse⟩)
              · exact absurd h1 hmp.1
              · exact absurd h1 hmp.2
              · cases h1
              · cases Option.some.inj hL2
                rw [hu] at hfalse
                exact Bool.noConfusion hfalse
          · rw [if_neg hu]
            constructor
            · intro _
              refine Or.inr (Or.inr (Or.inr ⟨L, rfl, ?_⟩))
              cases hb : L.IsUserInLobby email
              · rfl
              · exact absurd hb hu
            · intro _ hc
              cases hc
  · intro hne
    cases hchk : handleWebSocketCheck st email lid with
    | none => exact absurd hchk hne
    | some r =>
        unfold step
        by_cases hcr : st.crashed = true
        · rw [if_pos hcr]
          exact ⟨rfl, rfl, rfl⟩
        · rw [if_neg hcr, stepCore_connect_rejected cfgMax st email lid r hchk]
          exact ⟨rfl, rfl, rfl⟩
  · intro hchk hcr
    unfold step
    rw [if_neg (by rw [hcr]; exact fun hc => nomatch hc)]
    show (stepCore cfgMax st (.connect email lid)).nextChan = st.nextChan + 1
    rw [stepCore_connect_ok cfgMax st email lid hchk, handleRegister_nextChan]

/-- C9 witness: on the reachable one-member state, a non-member is rejected
with no state change and the member's connect allocates a fresh channel. -/
theorem C9_witness :
    (step 2 (run 2 initState [Event.login "a"]) (.connect "b" "lobby-0")).lobbies =
      (run 2 initState [Event.login "a"]).lobbies ∧
    (step 2 (run 2 initState [Event.login "a"]) (.connect "a" "lobby-0")).nextChan =
      (run 2 initState [Event.login "a"]).nextChan + 1 := by
  refine ⟨?_, ?_⟩
  · exact ((C9_connection_validation 2 (run 2 initState [Event.login "a"])
      "b" "lobby-0").2.1 (by decide)).1
  · exact (C9_connection_validation 2 (run 2 initState [Event.login "a"])
      "a" "lobby-0").2.2 (by decide) (by decide)

theorem notMem_activeList (users : List (String × User)) (k : String) (u : User)
    (hnod : (mapKeys users).Nodup) (hget : mapGet users k = some u)
    (hin : u.IsActive = false) :
    k ∉ (users.filter (fun p => p.2.IsActive)).map Prod.fst := by
  induction users with
  | nil => simp [mapGet] at hget
  | cons p rest ih =>
      have hnod2 : (mapKeys rest).Nodup := (List.nodup_cons.mp (by simpa using hnod)).2
      have hhead : p.1 ∉ mapKeys rest := (List.nodup_cons.mp (by simpa using hnod)).1
      by_cases hp : p.1 = k
      · have hu : p.2 = u := by
          simpa [mapGet, hp] using hget
        have hact : p.2.IsActive = false := by
          rw [hu]
          exact hin
        rw [List.filter_cons_of_neg (by simp [hact])]
        intro hmem
        have : k ∈ mapKeys rest := by
          have hsub := ((List.filter_sublist (l := rest)
            (p := fun q => q.2.IsActive)).map Prod.fst).subset
          exact hsub hmem
        exact hhead (hp ▸ this)
      · have hget2 : mapGet rest k = some u := by
          simpa [mapGet, hp] using hget
        by_cases hact : p.2.IsActive = true
        · rw [List.filter_cons_of_pos (by simp [hact])]
          intro hmem
          rcases (by simpa using hmem :
              k = p.1 ∨ k ∈ (rest.filter (fun q => q.2.IsActive)).map Prod.fst) with h1 | h1
          · exact hp h1.symm
          · exact ih hnod2 hget2 h1
        · rw [List.filter_cons_of_neg (by simpa using hact)]
          exact ih hnod2 hget2

/-- C10: serving a Register (connect) changes no member row in any lobby —
no active flag, no lastSeen; a member is reactivated only by the login path's
Lobby.AddUser, which returns exactly the (re)activated stored row; an
Unregister does set the member inactive, stamping the current time; and an
inactive member is excluded from the active-user list that the welcome and
join messages carry. -/
theorem C10_register_frame (cfgMax : Nat) (st : ServerState) (email lid lid2 : String)
    (c : Client) (l : Lobby) (k : String) (u : User) (now : Nat) :
    (usersOf (step cfgMax st (.connect email lid)) lid2 = usersOf st lid2) ∧
    (st.crashed = false →
      (∀ ch, mapGet st.chans c.Send = some ch → ch.closed = false) →
      ∀ L0, GetLobby st c.LobbyID = some L0 →
      ∀ u0, mapGet L0.Users c.Email = some u0 →
      mapGet (usersOf (step cfgMax st (.unregister c)) c.LobbyID) c.Email =
        some { u0 with IsActive := false, LastSeen := st.now }) ∧
    (mapGet (l.AddUser k now).1.Users k = some (l.AddUser k now).2 ∧
      ((l.AddUser k now).2).IsActive = true) ∧
    ((mapKeys l.Users).Nodup → mapGet l.Users k = some u → u.IsActive = false →
      k ∉ l.GetActiveUserList) := by
  refine ⟨?_, ?_, ?_, ?_⟩
  · unfold step
    by_cases hcr : st.crashed = true
    · rw [if_pos hcr]
    · rw [if_neg hcr]
      have hred : usersOf ({ stepCore cfgMax st (.connect email lid) with
          now := (stepCore cfgMax st (.connect email lid)).now + 1 } : ServerState) lid2 =
          usersOf (stepCore cfgMax st (.connect email lid)) lid2 :=
        usersOf_eq_of_lobbies (stepCore cfgMax st (.connect email lid)) _ rfl lid2
      rw [hred]
      cases hchk : handleWebSocketCheck st email lid with
      | some r => rw [stepCore_connect_rejected cfgMax st email lid r hchk]
      | none =>
          rw [stepCore_connect_ok cfgMax st email lid hchk]
          generalize hc2 :
            ({ Email := email, LobbyID := lid, Send := st.nextChan, JoinedAt := st.now } : Client) = c2
          generalize hst2 :
            ({ st with
               chans := mapSet st.chans st.nextChan { buf := [], cap := 256, closed := false },
               nextChan := st.nextChan + 1 } : ServerState) = st2
          have husers : ∀ l3, usersOf st2 l3 = usersOf st l3 := fun l3 =>
            usersOf_eq_of_lobbies st st2 (by rw [← hst2]) l3
          cases hg : GetLobby st2 c2.LobbyID with
          | none =>
              rw [handleRegister_eq_noLobby cfgMax st2 c2 hg, husers]
          | some lobby =>
              have hg2 : mapGet st2.lobbies c2.LobbyID = some lobby := hg
              cases hs : sendAll st2.chans c2.Send
                  (welcomeMessage cfgMax (lobby.AddClient c2.Email c2) c2.Email c2.LobbyID st2.now ::
                    (lobby.AddClient c2.Email c2).GetMessageHistory) with
              | mk chans1 pan =>
                  cases pan with
                  | true =>
                      have hfin : handleRegister cfgMax st2 c2 =
                          { st2 with
                            lobbies := mapSet st2.lobbies c2.LobbyID (lobby.AddClient c2.Email c2),
                            chans := chans1, crashed := true } := by
                        rw [handleRegister_eq_found cfgMax st2 c2 lobby hg, hs]
                      rw [hfin]
                      rw [usersOf_sameUsers_general st2
                        { st2 with
                          lobbies := mapSet st2.lobbies c2.LobbyID (lobby.AddClient c2.Email c2),
                          chans := chans1, crashed := true } c2.LobbyID lobby
                        (lobby.AddClient c2.Email c2) hg2 rfl rfl lid2]
                      exact husers lid2
                  | false =>
                      have hfin : handleRegister cfgMax st2 c2 =
                          { st2 with
                            lobbies := (mapSet st2.lobbies c2.LobbyID
                              (if (lobby.AddClient c2.Email c2).GetConnectedClientCount = cfgMax
                               then (lobby.AddClient c2.Email c2).StartWebSocket
                               else lobby.AddClient c2.Email c2)),
                            chans := chans1 } := by
                        rw [handleRegister_eq_found cfgMax st2 c2 lobby hg, hs]
                      rw [hfin]
                      rw [usersOf_sameUsers_general st2
                        { st2 with
                          lobbies := (mapSet st2.lobbies c2.LobbyID
                            (if (lobby.AddClient c2.Email c2).GetConnectedClientCount = cfgMax
                             then (lobby.AddClient c2.Email c2).StartWebSocket
                             else lobby.AddClient c2.Email c2)),
                          chans := chans1 } c2.LobbyID lobby
                        (if (lobby.AddClient c2.Email c2).GetConnectedClientCount = cfgMax
                         then (lobby.AddClient c2.Email c2).StartWebSocket
                         else lobby.AddClient c2.Email c2) hg2 rfl (by split <;> rfl) lid2]
                      exact husers lid2
  · intro hcr hch L0 hgL0 u0 hu0
    unfold step
    rw [if_neg (by rw [hcr]; exact fun hc => nomatch hc)]
    have hred : usersOf ({ stepCore cfgMax st (.unregister c) with
        now := (stepCore cfgMax st (.unregister c)).now + 1 } : ServerState) c.LobbyID =
        usersOf (stepCore cfgMax st (.unregister c)) c.LobbyID :=
      usersOf_eq_of_lobbies (stepCore cfgMax st (.unregister c)) _ rfl c.LobbyID
    rw [hred]
    show mapGet (usersOf (handleUnregister st c) c.LobbyID) c.Email = _
    have hclose : chanClose st.chans c.Send = ((chanClose st.chans c.Send).1, false) := by
      unfold chanClose
      cases hgc : mapGet st.chans c.Send with
      | none => rfl
      | some ch =>
          have := hch ch hgc
          simp [this]
    have hfin : handleUnregister st c =
        { st with
          lobbies := (mapSet st.lobbies c.LobbyID
            ((L0.RemoveClient c.Email).MarkUserInactive c.Email st.now)),
          chans := (chanClose st.chans c.Send).1 } := by
      rw [handleUnregister_eq_found st c L0 hgL0, hclose]
    rw [hfin]
    have husers2 : usersOf
        { st with
          lobbies := (mapSet st.lobbies c.LobbyID
            ((L0.RemoveClient c.Email).MarkUserInactive c.Email st.now)),
          chans := (chanClose st.chans c.Send).1 } c.LobbyID =
        ((L0.RemoveClient c.Email).MarkUserInactive c.Email st.now).Users := by
      rw [usersOf_set_general st _ c.LobbyID
        ((L0.RemoveClient c.Email).MarkUserInactive c.Email st.now) rfl c.LobbyID]
      rw [if_pos rfl]
    rw [husers2]
    have hu0b : mapGet (L0.RemoveClient c.Email).Users c.Email = some u0 := hu0
    rw [markUserInactive_eq_found _ _ _ u0 hu0b]
    show mapGet (mapSet (L0.RemoveClient c.Email).Users c.Email _) c.Email = _
    rw [mapGet_mapSet_self]
  · cases hga : mapGet l.Users k with
    | some u2 =>
        rw [addUser_eq_existing l k now u2 hga]
        exact ⟨mapGet_mapSet_self _ _ _, rfl⟩
    | none =>
        rw [addUser_eq_new l k now hga]
        exact ⟨mapGet_mapSet_self _ _ _, rfl⟩
  · intro hnod hget hin
    unfold Lobby.GetActiveUserList
    exact notMem_activeList l.Users k u hnod hget hin

/-- C10 witness: on the reachable one-member state, the Unregister for a
marks a inactive with the current timestamp, and an inactive a is excluded
from the active-user list. -/
theorem C10_witness :
    mapGet (usersOf (step 1 (run 1 initState [Event.login "a"])
        (.unregister { Email := "a", LobbyID := "lobby-0", Send := 0, JoinedAt := 0 })) "lobby-0") "a" =
      some { Email := "a", LobbyID := "lobby-0", JoinedAt := 0, IsActive := false,
             LastSeen := (run 1 initState [Event.login "a"]).now } ∧
    "a" ∉ ({ wLobby 1 with Users := [("a", { Email := "a", LobbyID := "lobby-0", JoinedAt := 0, IsActive := false, LastSeen := 0 })] } : Lobby).GetActiveUserList := by
  constructor
  · exact (C10_register_frame 1 (run 1 initState [Event.login "a"]) "a" "lobby-0" "lobby-0"
      { Email := "a", LobbyID := "lobby-0", Send := 0, JoinedAt := 0 }
      (wLobby 1) "a"
      { Email := "a", LobbyID := "lobby-0", JoinedAt := 0, IsActive := true, LastSeen := 0 }
      0).2.1
      (by decide) (fun ch h => nomatch h) (wLobby 1) (by decide)
      { Email := "a", LobbyID := "lobby-0", JoinedAt := 0, IsActive := true, LastSeen := 0 }
      (by decide)
  · exact (C10_register_frame 1 (run 1 initState [Event.login "a"]) "a" "lobby-0" "lobby-0"
      { Email := "a", LobbyID := "lobby-0", Send := 0, JoinedAt := 0 }
      ({ wLobby 1 with Users := [("a", { Email := "a", LobbyID := "lobby-0", JoinedAt := 0, IsActive := false, LastSeen := 0 })] }) "a"
      { Email := "a", LobbyID := "lobby-0", JoinedAt := 0, IsActive := false, LastSeen := 0 }
      0).2.2.2
      (by decide) (by decide) (by decide)

end Chat
